import Mathlib

/-!
Verification development for the smart-store analytics pipeline
(`data_prep.py`, `etl_to_dw.py`, `olap/cubing.py`).

The pandas data model is shallowly embedded: a DataFrame is a list of
column names together with row-major data; a cell is a rational number,
a string, a parsed date, or null (pandas `NaN`/`NaT`/`None`).  Numeric
coercion, median/quantile computation (pandas linear interpolation),
filling, critical-column drops, outlier filtering, date parsing and
sorting are translated from `data_prep.py`; cube construction and
column naming from `olap/cubing.py`; the warehouse load from
`etl_to_dw.py`.
-/

namespace SmartStore

/-- A cell value of a table: pandas scalars restricted to what the
pipeline manipulates.  `null` stands for `NaN`/`NaT`/missing. -/
inductive Val where
  | num (q : ℚ)
  | str (s : String)
  | date (d : ℤ)
  | null
deriving DecidableEq, Repr

/-- A row is the list of its cells, in column order. -/
abbrev Row := List Val

/-- A pandas DataFrame: ordered column names plus row-major data. -/
structure DataFrame where
  cols : List String
  rows : List Row
deriving DecidableEq, Repr

instance exceptDecEq {ε α : Type} [DecidableEq ε] [DecidableEq α] :
    DecidableEq (Except ε α) := fun a b =>
  match a, b with
  | .ok x, .ok y => decidable_of_iff (x = y) (by simp)
  | .ok _, .error _ => isFalse (by simp)
  | .error _, .ok _ => isFalse (by simp)
  | .error e, .error f => decidable_of_iff (e = f) (by simp)

/-- Index of a column name in a column list (first occurrence),
mirroring pandas column lookup. -/
def colIdx (cols : List String) (c : String) : Option ℕ :=
  match cols with
  | [] => none
  | c' :: cs => if c' = c then some 0 else (colIdx cs c).map (· + 1)

/-- Read the cell of a row at a named column; missing column or short
row reads as `null`. -/
def getCell (cols : List String) (c : String) (r : Row) : Val :=
  match colIdx cols c with
  | some i => r.getD i Val.null
  | none => Val.null

/-- The list of primary-key (or any column's) values of a table. -/
def colVals (df : DataFrame) (c : String) : List Val :=
  df.rows.map (getCell df.cols c)

/-- Numeric string parser used to model `pandas.to_numeric(errors =
coerce)` on the strings this pipeline meets: an optional sign, digits,
an optional fractional part.  Anything else (for example the sentinel
string of a question mark) fails to parse. -/
def parseDigits : List Char → Option ℕ
  | [] => none
  | cs =>
    if cs.all Char.isDigit then
      some (cs.foldl (fun acc c => 10 * acc + (c.toNat - 48)) 0)
    else none

/-- Parse a decimal numeral into a rational number, or fail. -/
def parseQ (s : String) : Option ℚ :=
  let core : List Char → Option ℚ := fun cs =>
    match cs.splitOn '.' with
    | [ip] => (parseDigits ip).map (fun n => (n : ℚ))
    | [ip, fp] =>
      match ip, fp with
      | [], [] => none
      | [], _ => (parseDigits fp).map (fun f => (f : ℚ) / 10 ^ fp.length)
      | _, [] => (parseDigits ip).map (fun n => (n : ℚ))
      | _, _ =>
        match parseDigits ip, parseDigits fp with
        | some n, some f => some ((n : ℚ) + (f : ℚ) / 10 ^ fp.length)
        | _, _ => none
    | _ => none
  match s.data with
  | '-' :: rest => (core rest).map (fun q => -q)
  | '+' :: rest => core rest
  | cs => core cs

/-- Model of `pandas.to_numeric(col, errors = coerce)` on one cell:
numbers pass through, parseable strings become numbers, anything else
becomes missing. -/
def toNumeric : Val → Val
  | .num q => .num q
  | .str s => match parseQ s with
    | some q => .num q
    | none => .null
  | .date _ => .null
  | .null => .null

/-- Date parser for `pandas.to_datetime(errors = coerce)`: accepts the
ISO form year-month-day and encodes it as a single integer; anything
unparseable becomes missing. -/
def parseDate (s : String) : Option ℤ :=
  match s.data.splitOn '-' with
  | [y, m, d] =>
    match parseDigits y, parseDigits m, parseDigits d with
    | some yy, some mm, some dd =>
      if 1 ≤ mm ∧ mm ≤ 12 ∧ 1 ≤ dd ∧ dd ≤ 31 then
        some ((yy : ℤ) * 10000 + mm * 100 + dd)
      else none
    | _, _, _ => none
  | _ => none

/-- Model of `pandas.to_datetime(col, errors = coerce)` on one cell. -/
def toDatetime : Val → Val
  | .num n => .date ⌊n⌋
  | .str s => match parseDate s with
    | some d => .date d
    | none => .null
  | .date d => .date d
  | .null => .null

/-- Rank used to totalize the ordering on mixed cell values; pandas
sorting places missing values last. -/
def valRank : Val → ℕ
  | .num _ => 0
  | .str _ => 1
  | .date _ => 2
  | .null => 3

/-- Total boolean order on cell values used to model
`DataFrame.sort_values`. -/
def valLe (a b : Val) : Bool :=
  match a, b with
  | .num x, .num y => decide (x ≤ y)
  | .str x, .str y => decide (x ≤ y)
  | .date x, .date y => decide (x ≤ y)
  | _, _ => decide (valRank a ≤ valRank b)

/-- Insert into a sorted list (stable insertion sort step). -/
def insertLe {α : Type} (le : α → α → Bool) (x : α) : List α → List α
  | [] => [x]
  | y :: ys => if le x y then x :: y :: ys else y :: insertLe le x ys

/-- Insertion sort by a boolean comparison. -/
def sortLe {α : Type} (le : α → α → Bool) : List α → List α
  | [] => []
  | x :: xs => insertLe le x (sortLe le xs)

/-- Boolean sortedness of a list under a comparison. -/
def isSortedLe {α : Type} (le : α → α → Bool) : List α → Bool
  | [] => true
  | [_] => true
  | a :: b :: t => le a b && isSortedLe le (b :: t)

/-- Interpolated quantile exactly as pandas computes it (linear
interpolation over the sorted values); `none` on an empty population. -/
def quantileQ (p : ℚ) (xs : List ℚ) : Option ℚ :=
  match sortLe (fun a b => decide (a ≤ b)) xs with
  | [] => none
  | s =>
    let n := s.length
    let pos : ℚ := p * ((n : ℚ) - 1)
    let i : ℕ := pos.floor.toNat
    let lo := s.getD i 0
    let hi := s.getD (min (i + 1) (n - 1)) 0
    some (lo + (pos - (pos.floor : ℚ)) * (hi - lo))

/-- The non-missing numeric values of a column, in row order (pandas
aggregations skip `NaN`). -/
def numCol (df : DataFrame) (c : String) : List ℚ :=
  df.rows.filterMap (fun r =>
    match getCell df.cols c r with
    | .num q => some q
    | _ => none)

/-- Median of a column, pandas `Series.median` (quantile one half,
skipping missing values). -/
def medianCol (df : DataFrame) (c : String) : Option ℚ :=
  quantileQ (1/2) (numCol df c)

/-- Apply a cell transform to one named column, leaving the table
unchanged when the column is absent (the `if col in df.columns`
guards of `data_prep.py`). -/
def mapCol (df : DataFrame) (c : String) (f : Val → Val) : DataFrame :=
  match colIdx df.cols c with
  | some i => ⟨df.cols, df.rows.map (fun r => r.set i (f (r.getD i Val.null)))⟩
  | none => df

/-- Cell-level `fillna`: replace a missing cell by the fill value. -/
def fillWith (w : Val) (v : Val) : Val :=
  if v = Val.null then w else v

/-- The fill value derived from an optional median: when the median is
undefined (all values missing) pandas fills with `NaN`, leaving the
cell missing. -/
def medianFill : Option ℚ → Val
  | some m => .num m
  | none => .null

/-- Model of `DataFrame.dropna(subset = ...)` restricted, as in
`data_prep.py`, to the critical columns that exist in the table. -/
def dropNaSubset (df : DataFrame) (crits : List String) : DataFrame :=
  let existing := crits.filter (fun c => (colIdx df.cols c).isSome)
  ⟨df.cols, df.rows.filter (fun r =>
    existing.all (fun c => !(getCell df.cols c r == Val.null)))⟩

/-- Model of the filters `df[df[col] >= 0]`: keep rows whose cell is a
number at least zero; comparisons against `NaN` are false in pandas, so
missing cells are dropped; the table is unchanged when the column is
absent. -/
def filterNonNegCol (df : DataFrame) (c : String) : DataFrame :=
  match colIdx df.cols c with
  | some i => ⟨df.cols, df.rows.filter (fun r =>
      match r.getD i Val.null with
      | .num q => decide (0 ≤ q)
      | _ => false)⟩
  | none => df

/-- Keep rows whose cell at the column lies in the closed interval.
For `clean_sales_data` this is `DataScrubber.filter_column_outliers`.
Modelled from the spec: `DataScrubber` is not under `src/`; section
4.1 step 6 of the spec says the outlier filter keeps only rows with
value in the closed IQR interval, and `clean_products_data` realizes
the same filter inline with `>=` and `<=`. -/
def filterColInRange (df : DataFrame) (c : String) (lb ub : ℚ) : DataFrame :=
  match colIdx df.cols c with
  | some i => ⟨df.cols, df.rows.filter (fun r =>
      match r.getD i Val.null with
      | .num q => decide (lb ≤ q) && decide (q ≤ ub)
      | _ => false)⟩
  | none => df

/-- First-occurrence deduplication of a list, used for full-row
duplicate removal and for distinct group keys. -/
def dedupFirstAux {α : Type} [DecidableEq α] (seen : List α) : List α → List α
  | [] => []
  | x :: xs =>
    if x ∈ seen then dedupFirstAux seen xs
    else x :: dedupFirstAux (x :: seen) xs

/-- Keep the first occurrence of every element. -/
def dedupFirst {α : Type} [DecidableEq α] (l : List α) : List α :=
  dedupFirstAux [] l

/-- Full-row duplicate removal keeping the first occurrence.  Modelled
from the spec: `DataScrubber.remove_duplicate_records` is not under
`src/`; section 4.1 step 1 of the spec says the Sales entity is
deduplicated on full-row equality, keeping the first occurrence. -/
def dedupRows (df : DataFrame) : DataFrame :=
  ⟨df.cols, dedupFirst df.rows⟩

/-- Keep-first deduplication on one key column, the
`drop_duplicates(subset = [pk], keep = first)` of the customers and
products cleaners.  The source raises a key error when the column is
absent; every theorem below assumes the column is present, and the
absent case is modelled as the identity. -/
def dedupByKeyAux (cols : List String) (pk : String) (seen : List Val) :
    List Row → List Row
  | [] => []
  | r :: rs =>
    if getCell cols pk r ∈ seen then dedupByKeyAux cols pk seen rs
    else r :: dedupByKeyAux cols pk (getCell cols pk r :: seen) rs

/-- Table-level keep-first deduplication on one key column. -/
def dedupByKey (df : DataFrame) (pk : String) : DataFrame :=
  match colIdx df.cols pk with
  | some _ => ⟨df.cols, dedupByKeyAux df.cols pk [] df.rows⟩
  | none => df

/-- Whitespace recognized by trimming. -/
def isSpaceChar (c : Char) : Bool :=
  c = ' ' || c = '\t' || c = '\n' || c = '\r'

/-- Trim leading and trailing whitespace and upper-case, on the
character list of a string. -/
def upperTrimStr (s : String) : String :=
  String.mk ((((s.data.dropWhile isSpaceChar).reverse.dropWhile
    isSpaceChar).reverse).map Char.toUpper)

/-- Upper-case and trim a string cell; other cells are unchanged.
Modelled from the spec: `DataScrubber.format_column_strings_to_upper_and_trim`
is not under `src/`; section 4.1 step 5 of the spec says designated
categorical columns are upper-cased and trimmed of whitespace. -/
def upperTrimVal : Val → Val
  | .str s => .str (upperTrimStr s)
  | v => v

/-- Format one string column to upper case, trimmed. -/
def formatUpperTrim (df : DataFrame) (c : String) : DataFrame :=
  mapCol df c upperTrimVal

/-- Row comparison by the cell of one column (index form). -/
def rowLeAt (i : ℕ) (r s : Row) : Bool :=
  valLe (r.getD i Val.null) (s.getD i Val.null)

/-- Model of `df.sort_values(pk).reset_index(drop = True)`: sort the
rows ascending by the key column; unchanged when the column is absent
(the guard in `data_prep.py`). -/
def sortByCol (df : DataFrame) (pk : String) : DataFrame :=
  match colIdx df.cols pk with
  | some i => ⟨df.cols, sortLe (rowLeAt i) df.rows⟩
  | none => df

/-! ### The sales cleaner, `clean_sales_data` -/

/-- The critical columns of the Sale entity (`data_prep.py`). -/
def salesCriticalColumns : List String :=
  ["TransactionID", "SaleDate", "CustomerID", "ProductID", "StoreID",
   "SaleAmount"]

/-- Steps 1 to 3 of `clean_sales_data`: full-row deduplication, numeric
coercion of `SaleAmount` and `Shipping` (with the sentinel replacement
of the string `free` by zero shipping), filling of `CampaignID` with
zero and of `Shipping` with its median, then the drop of rows missing
a critical column. -/
def salesAfterCriticalDrop (df : DataFrame) : DataFrame :=
  let d1 := dedupRows df
  let d2 := mapCol d1 "SaleAmount" toNumeric
  let d3 := mapCol d2 "Shipping"
    (fun v => toNumeric (if v = Val.str "free" then Val.str "0" else v))
  let d4 := mapCol d3 "CampaignID" (fillWith (Val.num 0))
  let d5 := mapCol d4 "Shipping" (fillWith (medianFill (medianCol d4 "Shipping")))
  dropNaSubset d5 salesCriticalColumns

/-- Steps 4 and 5a of `clean_sales_data`: upper-case the `State`
column, then drop rows with negative `SaleAmount` or `Shipping`. -/
def salesPreOutlier (df : DataFrame) : DataFrame :=
  let d7 := formatUpperTrim (salesAfterCriticalDrop df) "State"
  let d8 := filterNonNegCol d7 "SaleAmount"
  filterNonNegCol d8 "Shipping"

/-- First quartile of the non-negative, post-coercion `SaleAmount`
population over which `clean_sales_data` computes its outlier bounds
(zero when the population is empty, in which case no row exists to
filter). -/
def salesQ1 (df : DataFrame) : ℚ :=
  (quantileQ (1/4) (numCol (salesPreOutlier df) "SaleAmount")).getD 0

/-- Third quartile of the same population. -/
def salesQ3 (df : DataFrame) : ℚ :=
  (quantileQ (3/4) (numCol (salesPreOutlier df) "SaleAmount")).getD 0

/-- Lower outlier bound of `clean_sales_data`. -/
def salesLB (df : DataFrame) : ℚ :=
  salesQ1 df - 3/2 * (salesQ3 df - salesQ1 df)

/-- Upper outlier bound of `clean_sales_data`. -/
def salesUB (df : DataFrame) : ℚ :=
  salesQ3 df + 3/2 * (salesQ3 df - salesQ1 df)

/-- Step 5b of `clean_sales_data`: the IQR outlier filter on
`SaleAmount`, guarded by the presence of the column. -/
def salesOutlierStep (df : DataFrame) : DataFrame :=
  match colIdx (salesPreOutlier df).cols "SaleAmount" with
  | some _ => filterColInRange (salesPreOutlier df) "SaleAmount"
      (salesLB df) (salesUB df)
  | none => salesPreOutlier df

/-- The sales cleaner `clean_sales_data` of `data_prep.py`: steps 1 to
7 (deduplicate, coerce, fill, drop critical, format, outlier-filter,
parse dates, sort by `TransactionID`). -/
def clean_sales_data (df : DataFrame) : DataFrame :=
  sortByCol (mapCol (salesOutlierStep df) "SaleDate" toDatetime)
    "TransactionID"

/-! ### The customers cleaner, `clean_customers_data` -/

/-- The critical columns of the Customer entity. -/
def customersCriticalColumns : List String := ["CustomerID", "Name"]

/-- Step 5 of `clean_customers_data` and step 4 of
`clean_products_data`: the IQR filter whose lower bound is clamped to
zero, computed over the current values of the column and applied
inline with non-strict comparisons. -/
def iqrFilterClamped (df : DataFrame) (c : String) : DataFrame :=
  match colIdx df.cols c with
  | some _ =>
    let xs := numCol df c
    let q1 := (quantileQ (1/4) xs).getD 0
    let q3 := (quantileQ (3/4) xs).getD 0
    filterColInRange df c (max 0 (q1 - 3/2 * (q3 - q1))) (q3 + 3/2 * (q3 - q1))
  | none => df

/-- The customers cleaner `clean_customers_data` of `data_prep.py`:
deduplicate on `CustomerID`, format `Name` and `Region`, drop rows
missing `CustomerID` or `Name`, fill `Region` with the unknown marker
and the numeric counters with zero, parse `JoinDate`, filter
`NumberOfPurshases` outliers, sort by `CustomerID`. -/
def clean_customers_data (df : DataFrame) : DataFrame :=
  let d1 := dedupByKey df "CustomerID"
  let d2 := formatUpperTrim d1 "Name"
  let d3 := formatUpperTrim d2 "Region"
  let d4 := dropNaSubset d3 customersCriticalColumns
  let d5 := mapCol d4 "Region" (fillWith (Val.str "UNKNOWN"))
  let d6 := mapCol d5 "NumberOfPurshases" (fillWith (Val.num 0))
  let d7 := mapCol d6 "ShoppingFrequency" (fillWith (Val.num 0))
  let d8 := mapCol d7 "JoinDate" toDatetime
  let d9 := iqrFilterClamped d8 "NumberOfPurshases"
  sortByCol d9 "CustomerID"

/-! ### The products cleaner, `clean_products_data` -/

/-- The critical columns of the Product entity. -/
def productsCriticalColumns : List String := ["ProductID", "ProductName"]

/-- The products cleaner `clean_products_data` of `data_prep.py`:
deduplicate on `ProductID`, format `ProductName` and `Category`, drop
rows missing `ProductID` or `ProductName`, fill `Category` with the
uncategorized marker, coerce `Price` and fill it with its median, drop
negative prices and filter `Price` outliers with the clamped IQR rule,
sort by `ProductID`. -/
def clean_products_data (df : DataFrame) : DataFrame :=
  let d1 := dedupByKey df "ProductID"
  let d2 := formatUpperTrim d1 "ProductName"
  let d3 := formatUpperTrim d2 "Category"
  let d4 := dropNaSubset d3 productsCriticalColumns
  let d5 := mapCol d4 "Category" (fillWith (Val.str "UNCATEGORIZED"))
  let d6 := mapCol d5 "Price" toNumeric
  let d7 := mapCol d6 "Price" (fillWith (medianFill (medianCol d6 "Price")))
  let d8 := filterNonNegCol d7 "Price"
  let d9 := iqrFilterClamped d8 "Price"
  sortByCol d9 "ProductID"

/-! ### OLAP cubing, `olap/cubing.py`

A measure mapping is embedded as an ordered association list from a
measure column to its list of aggregation-function names (the list
branch of `generate_column_names`; a single function is the singleton
list, and both branches of the source produce the same
column-underscore-function name). -/

/-- Measures: ordered mapping from measure column to aggregation
function names. -/
abbrev Measures := List (String × List String)

/-- Strip trailing underscores from a column name, the
`name.rstrip` of `generate_column_names`. -/
def rstripUnderscore (s : String) : String :=
  String.mk ((s.data.reverse.dropWhile (fun c => c = '_')).reverse)

/-- The explicit cube column names of `generate_column_names`: the
dimension names, then one name per measure and function, every name
stripped of trailing underscores. -/
def generate_column_names (dimensions : List String) (measures : Measures) :
    List String :=
  let column_names :=
    measures.foldl
      (fun acc m => acc ++ m.2.map (fun func => m.1 ++ "_" ++ func))
      dimensions
  column_names.map rstripUnderscore

/-- The tuple of dimension values of one fact row. -/
def dimKey (cols : List String) (dims : List String) (r : Row) : List Val :=
  dims.map (fun d => getCell cols d r)

/-- All observed dimension tuples of a fact table, in row order. -/
def dimKeys (df : DataFrame) (dims : List String) : List (List Val) :=
  df.rows.map (dimKey df.cols dims)

/-- The distinct dimension tuples that contain no missing value, in
order of first appearance: the group keys of `groupby(dimensions)`
under the pandas default of dropping missing keys. -/
def distinctNonNullKeys (df : DataFrame) (dims : List String) :
    List (List Val) :=
  dedupFirst ((dimKeys df dims).filter (fun k => !(k.contains Val.null)))

/-- Aggregation-function names the cube accepts; pandas resolves the
names up front and raises on an unknown one. -/
def supportedAggs : List String := ["sum", "mean", "count", "min", "max"]

/-- Apply one aggregation function to the non-missing numeric values
of a measure column within one group (pandas skips missing values;
the sum of an empty group is zero, the mean of one is missing). -/
def applyAgg (func : String) (vs : List ℚ) : Val :=
  if func = "sum" then .num vs.sum
  else if func = "mean" then
    match vs with
    | [] => .null
    | _ => .num (vs.sum / vs.length)
  else if func = "count" then .num vs.length
  else if func = "min" then
    match vs with
    | [] => .null
    | v :: rest => .num (rest.foldl min v)
  else
    match vs with
    | [] => .null
    | v :: rest => .num (rest.foldl max v)

/-- The numeric values of a measure column over the rows of one group
(the rows whose dimension tuple equals the key). -/
def groupMeasureVals (df : DataFrame) (dims : List String) (key : List Val)
    (m : String) : List ℚ :=
  (df.rows.filter (fun r => dimKey df.cols dims r == key)).filterMap
    (fun r =>
      match getCell df.cols m r with
      | .num q => some q
      | _ => none)

/-- The aggregated measure cells of one group, one per measure and
function, in mapping order. -/
def aggCells (df : DataFrame) (dims : List String) (measures : Measures)
    (key : List Val) : List Val :=
  measures.flatMap (fun m =>
    m.2.map (fun func => applyAgg func (groupMeasureVals df dims key m.1)))

/-- The OLAP cube builder `create_olap_cube` of `olap/cubing.py`:
group the fact rows by the dimension tuple (missing keys dropped, the
pandas `groupby` default), aggregate every measure with every
requested function, and name the columns with
`generate_column_names`.  Errors mirror pandas: grouping by an empty
dimension list, by an absent column, aggregating an absent measure
column, or requesting an unknown aggregation function all raise. -/
def create_olap_cube (sales_df : DataFrame) (dimensions : List String)
    (measures : Measures) : Except String DataFrame :=
  if dimensions.isEmpty then
    .error "ValueError: no group keys passed"
  else if !(dimensions.all (fun d => (colIdx sales_df.cols d).isSome)) then
    .error "KeyError: dimension column absent"
  else if !(measures.all (fun m => (colIdx sales_df.cols m.1).isSome)) then
    .error "KeyError: measure column absent"
  else if !(measures.all (fun m => m.2.all (fun f => f ∈ supportedAggs))) then
    .error "AttributeError: unknown aggregation function"
  else
    let keys := distinctNonNullKeys sales_df dimensions
    .ok ⟨generate_column_names dimensions measures,
      keys.map (fun k => k ++ aggCells sales_df dimensions measures k)⟩

/-! ### The warehouse load, `etl_to_dw.py`

`load_data_to_db` is embedded as a step-indexed run over an abstract
persisted store.  The store is the warehouse database file: absent, or
present with its committed content.  The model follows the structure
of the source together with the commit behavior of its libraries: the
old database file is unlinked before the `try` block; connecting
creates a fresh file; the schema statements autocommit (Python's
`sqlite3` runs DDL outside the implicit transaction); the record wipe
is staged and rolled back if the run fails before a commit point (it
is a no-op on the fresh file either way); each `to_sql` call on the
raw `sqlite3` connection runs inside pandas' per-call transaction,
which commits that one table's batch on success and rolls it back on
failure, so the three inserts commit one after the other rather than
at the final `conn.commit()` (which finds nothing left to commit);
the `finally` block closes the connection on every exit path.  An
injected failure step aborts the run before that step's effect,
leaving the effects of all earlier steps, committed batches
included. -/

/-- Committed content of the warehouse database file, abstracted as
the list of tables whose rows of this run have been committed. -/
abbrev DbContent := List String

/-- The persisted store: the database file, absent or with content. -/
structure DwStore where
  dbFile : Option DbContent
deriving DecidableEq, Repr

/-- Outcome of one warehouse load run. -/
structure LoadResult where
  store : DwStore
  ok : Bool
  connReleased : Bool
deriving DecidableEq, Repr

/-- The content committed by a fully successful run. -/
def fullLoadContent : DbContent := ["customer", "product", "sale"]

/-- Step numbers of `load_data_to_db`: zero the directory creation,
one the unlink of the old database file, two the connect, three the
autocommitting schema creation, four the staged record wipe, five the
CSV reads and renames, six to eight the three inserts (each committed
on its own by the per-call transaction of `to_sql` — a schema
mismatch such as the `Price` column missing from the product rename
map makes step seven raise with the customer batch already
committed), nine the final commit (by then a no-op); `failAt` names
the step that raises, before that step's effect; an index past nine
or no index means the run succeeds. -/
def load_data_to_db (failAt : Option ℕ) (init : DwStore) : LoadResult :=
  match failAt with
  | none => ⟨⟨some fullLoadContent⟩, true, true⟩
  | some n =>
    if n ≤ 1 then ⟨init, false, true⟩
    else if n = 2 then ⟨⟨none⟩, false, true⟩
    else if n ≤ 6 then ⟨⟨some []⟩, false, true⟩
    else if n = 7 then ⟨⟨some ["customer"]⟩, false, true⟩
    else if n = 8 then ⟨⟨some ["customer", "product"]⟩, false, true⟩
    else if n = 9 then ⟨⟨some fullLoadContent⟩, false, true⟩
    else ⟨⟨some fullLoadContent⟩, true, true⟩

/-! ### The cleaning entry point, `data_prep.py` `main`

The per-file work (read the raw CSV, clean, save) is abstracted as the
outcome of that file: either a cleaned table, or the error it raised.
The loop body catches the missing-input error (`FileNotFoundError`)
with a warning and continues; every other error is re-raised after
logging, aborting the run. -/

/-- Errors a file's processing can raise. -/
inductive RunError where
  | missingInput
  | fatal (msg : String)
deriving DecidableEq, Repr

/-- One file's outcome: a value, or the error its processing raised. -/
abbrev FileOutcome (α : Type) := Except RunError α

/-- What one file's outcome contributes to the run's results: the
cleaned table, or nothing when its processing raised. -/
def fileOutcomeResult {α : Type} : FileOutcome α → Option α
  | .ok a => some a
  | .error _ => none

/-- The driver loop of `main` in `data_prep.py`: process the files in
order; a missing input is skipped (recorded as nothing produced), any
other error propagates to the caller and stops the run. -/
def processAll {α : Type} : List (FileOutcome α) →
    Except RunError (List (Option α))
  | [] => .ok []
  | .ok a :: js => (processAll js).map (fun rest => some a :: rest)
  | .error .missingInput :: js => (processAll js).map (fun rest => none :: rest)
  | .error e :: _ => .error e

/-! ### Concrete tables used to instantiate and to refute claims -/

/-- The Sale input schema of `sales_data.csv`. -/
def salesColsEx : List String :=
  ["TransactionID", "CustomerID", "ProductID", "StoreID", "CampaignID",
   "SaleAmount", "SaleDate", "Shipping", "State"]

/-- Two raw Sale rows sharing a `TransactionID` but differing in
`SaleAmount`: not full-row duplicates, so both survive the sales
deduplication. -/
def c1SalesDup : DataFrame :=
  ⟨salesColsEx,
   [[.num 1, .num 1, .num 1, .num 1, .num 0, .num 10, .str "2024-01-01",
     .num 5, .str "CA"],
    [.num 1, .num 1, .num 1, .num 1, .num 0, .num 20, .str "2024-01-01",
     .num 5, .str "CA"]]⟩

/-- A Sale row of the cleaned output of `c1SalesDup` (the smaller
amount, dates parsed, state formatted). -/
def c1OutRow : Row :=
  [.num 1, .num 1, .num 1, .num 1, .num 0, .num 10, .date 20240101,
   .num 5, .str "CA"]

/-- A raw Sale row whose `SaleDate` does not parse: it survives the
first cleaning pass (the date field is non-missing text at the
critical-column drop) but its date becomes missing, so a second pass
drops it. -/
def c4SalesBadDate : DataFrame :=
  ⟨salesColsEx,
   [[.num 1, .num 1, .num 1, .num 1, .num 0, .num 10, .str "soon",
     .num 2, .str "CA"]]⟩

/-- A Sale table with one sentinel row (`SaleAmount` the question-mark
string, all other critical fields present) and one fully regular row
with the shipping sentinel and unnormalized state. -/
def c8SalesTable : DataFrame :=
  ⟨salesColsEx,
   [[.num 1, .num 1, .num 1, .num 1, .num 0, .str "?", .str "2024-01-01",
     .num 2, .str "CA"],
    [.num 2, .num 1, .num 1, .num 1, .num 0, .num 10, .str "2024-01-02",
     .str "free", .str " ca "]]⟩

/-- The surviving cleaned row of `c8SalesTable`. -/
def c8OutRow : Row :=
  [.num 2, .num 1, .num 1, .num 1, .num 0, .num 10, .date 20240102,
   .num 0, .str "CA"]

/-- The Customer input schema of `customers_data.csv`. -/
def custColsEx : List String :=
  ["CustomerID", "Name", "Region", "JoinDate", "NumberOfPurshases",
   "ShoppingFrequency"]

/-- A raw Customer table with a duplicated `CustomerID` and a row
missing the critical `Name`. -/
def custEx : DataFrame :=
  ⟨custColsEx,
   [[.num 2, .str "bob", .str "east", .str "2020-01-02", .num 1, .num 1],
    [.num 1, .str "ann", .str "west", .str "2020-01-01", .num 1, .num 2],
    [.num 1, .str "ann again", .str "west", .str "2020-01-01", .num 1,
     .num 2],
    [.num 3, .null, .str "north", .str "2020-01-03", .num 1, .num 1]]⟩

/-- The Product input schema of `products_data.csv`. -/
def prodColsEx : List String :=
  ["ProductID", "ProductName", "Category", "Price", "UnitPrice",
   "StockQuantity", "Supplier"]

/-- A raw Product table with a duplicated `ProductID`. -/
def prodEx : DataFrame :=
  ⟨prodColsEx,
   [[.num 2, .str "pen", .str "office", .num 4, .num 4, .num 10, .str "s1"],
    [.num 1, .str "ink", .null, .num 5, .num 5, .num 3, .str "s2"],
    [.num 1, .str "ink twice", .str "office", .num 5, .num 5, .num 3,
     .str "s2"]]⟩

/-- A fact table whose single row has a missing dimension value. -/
def c2NullDimFact : DataFrame :=
  ⟨["sale_id", "product_id", "sale_amount"],
   [[.num 1, .null, .num 5]]⟩

/-- The empty fact table with the warehouse sale schema. -/
def c6EmptyFact : DataFrame :=
  ⟨["sale_id", "product_id", "sale_amount"], []⟩

/-- The fact table of spec example five: three rows over two
products. -/
def ex5Fact : DataFrame :=
  ⟨["sale_id", "product_id", "sale_amount"],
   [[.num 1, .num 1, .num 10],
    [.num 2, .num 1, .num 20],
    [.num 3, .num 2, .num 5]]⟩

/-- The cube the builder produces from `ex5Fact` grouped by product
with the summed sale amount. -/
def ex5Cube : DataFrame :=
  ⟨["product_id", "sale_amount_sum"],
   [[.num 1, .num 30], [.num 2, .num 5]]⟩

/-- Per-file outcomes with one missing input and no fatal error. -/
def jobsNoFatal : List (FileOutcome DataFrame) :=
  [.ok ⟨["a"], []⟩, .error .missingInput, .ok ⟨["b"], []⟩]

/-! ### Basic lemmas on list indexing and column lookup -/

theorem listGetD_eq_default {α : Type} (d : α) :
    ∀ (l : List α) (i : ℕ), l.length ≤ i → l.getD i d = d := by
  intro l
  induction l with
  | nil => intro i _; cases i <;> rfl
  | cons x xs ih =>
    intro i hi
    cases i with
    | zero => simp at hi
    | succ j => simpa using ih j (by simpa using hi)

theorem listGetD_set_ne {α : Type} (d v : α) :
    ∀ (l : List α) (i j : ℕ), i ≠ j → (l.set i v).getD j d = l.getD j d := by
  intro l
  induction l with
  | nil => intro i j _; simp
  | cons x xs ih =>
    intro i j hij
    cases i with
    | zero =>
      cases j with
      | zero => exact absurd rfl hij
      | succ j' => simp [List.set]
    | succ i' =>
      cases j with
      | zero => simp [List.set]
      | succ j' =>
        simp only [List.set, List.getD_cons_succ]
        exact ih i' j' (fun h => hij (by rw [h]))

theorem listGetD_set_self {α : Type} (d v : α) :
    ∀ (l : List α) (i : ℕ), i < l.length → (l.set i v).getD i d = v := by
  intro l
  induction l with
  | nil => intro i hi; simp at hi
  | cons x xs ih =>
    intro i hi
    cases i with
    | zero => rfl
    | succ i' =>
      simp only [List.set, List.getD_cons_succ]
      exact ih i' (by simpa using hi)

theorem listSet_of_length_le {α : Type} (v : α) :
    ∀ (l : List α) (i : ℕ), l.length ≤ i → l.set i v = l := by
  intro l
  induction l with
  | nil => intro i _; rfl
  | cons x xs ih =>
    intro i hi
    cases i with
    | zero => simp at hi
    | succ i' => simp only [List.set]; rw [ih i' (by simpa using hi)]

theorem colIdx_getD {c : String} :
    ∀ {cols : List String} {i : ℕ}, colIdx cols c = some i →
      cols.getD i "" = c := by
  intro cols
  induction cols with
  | nil => intro i h; simp [colIdx] at h
  | cons c' cs ih =>
    intro i h
    by_cases hc : c' = c
    · simp [colIdx, hc] at h
      subst h
      simpa using hc
    · simp only [colIdx, if_neg hc] at h
      cases hidx : colIdx cs c with
      | none => rw [hidx] at h; simp at h
      | some j =>
        rw [hidx] at h
        have hj : j + 1 = i := by simpa using h
        subst hj
        simpa using ih hidx

theorem colIdx_ne {cols : List String} {c c' : String} {i j : ℕ}
    (h1 : colIdx cols c = some i) (h2 : colIdx cols c' = some j)
    (hcc : c ≠ c') : i ≠ j := by
  intro hij
  apply hcc
  have e1 := colIdx_getD h1
  have e2 := colIdx_getD h2
  rw [← e1, ← e2, hij]

theorem colIdx_none_iff {cols : List String} {c : String} :
    colIdx cols c = none ↔ c ∉ cols := by
  induction cols with
  | nil => simp [colIdx]
  | cons c' cs ih =>
    by_cases hc : c' = c
    · subst hc; simp [colIdx]
    · simp only [colIdx, if_neg hc, Option.map_eq_none', List.mem_cons, ih]
      constructor
      · intro h hor
        rcases hor with rfl | hm
        · exact hc rfl
        · exact h hm
      · intro h hm
        exact h (Or.inr hm)

theorem colIdx_isSome_iff {cols : List String} {c : String} :
    (colIdx cols c).isSome ↔ c ∈ cols := by
  rw [Option.isSome_iff_ne_none]
  constructor
  · intro h
    by_contra hm
    exact h (colIdx_none_iff.mpr hm)
  · intro hm h
    exact (colIdx_none_iff.mp h) hm

/-! ### Column and row preservation lemmas for the table operations -/

@[simp]
theorem mapCol_cols (df : DataFrame) (c : String) (f : Val → Val) :
    (mapCol df c f).cols = df.cols := by
  unfold mapCol
  cases colIdx df.cols c <;> rfl

@[simp]
theorem dropNaSubset_cols (df : DataFrame) (cs : List String) :
    (dropNaSubset df cs).cols = df.cols := rfl

@[simp]
theorem filterNonNegCol_cols (df : DataFrame) (c : String) :
    (filterNonNegCol df c).cols = df.cols := by
  unfold filterNonNegCol
  cases colIdx df.cols c <;> rfl

@[simp]
theorem filterColInRange_cols (df : DataFrame) (c : String) (lb ub : ℚ) :
    (filterColInRange df c lb ub).cols = df.cols := by
  unfold filterColInRange
  cases colIdx df.cols c <;> rfl

@[simp]
theorem dedupRows_cols (df : DataFrame) : (dedupRows df).cols = df.cols := rfl

@[simp]
theorem dedupByKey_cols (df : DataFrame) (pk : String) :
    (dedupByKey df pk).cols = df.cols := by
  unfold dedupByKey
  cases colIdx df.cols pk <;> rfl

@[simp]
theorem formatUpperTrim_cols (df : DataFrame) (c : String) :
    (formatUpperTrim df c).cols = df.cols := mapCol_cols df c upperTrimVal

@[simp]
theorem sortByCol_cols (df : DataFrame) (pk : String) :
    (sortByCol df pk).cols = df.cols := by
  unfold sortByCol
  cases colIdx df.cols pk <;> rfl

@[simp]
theorem iqrFilterClamped_cols (df : DataFrame) (c : String) :
    (iqrFilterClamped df c).cols = df.cols := by
  unfold iqrFilterClamped
  cases colIdx df.cols c
  · rfl
  · exact filterColInRange_cols _ _ _ _

/-! ### Sublist, permutation and length lemmas for the row transforms -/

theorem dedupFirstAux_sublist {α : Type} [DecidableEq α] (seen : List α) :
    ∀ l : List α, List.Sublist (dedupFirstAux seen l) l := by
  intro l
  induction l generalizing seen with
  | nil => simp [dedupFirstAux]
  | cons x xs ih =>
    unfold dedupFirstAux
    by_cases hx : x ∈ seen
    · simp only [if_pos hx]
      exact (ih seen).cons x
    · simp only [if_neg hx]
      exact (ih (x :: seen)).cons₂ x

theorem dedupRows_sublist (df : DataFrame) : List.Sublist (dedupRows df).rows df.rows :=
  dedupFirstAux_sublist [] df.rows

theorem dedupByKeyAux_sublist (cols : List String) (pk : String) :
    ∀ (seen : List Val) (l : List Row), List.Sublist (dedupByKeyAux cols pk seen l) l := by
  intro seen l
  induction l generalizing seen with
  | nil => simp [dedupByKeyAux]
  | cons r rs ih =>
    unfold dedupByKeyAux
    by_cases hr : getCell cols pk r ∈ seen
    · simp only [if_pos hr]
      exact (ih seen).cons r
    · simp only [if_neg hr]
      exact (ih (getCell cols pk r :: seen)).cons₂ r

theorem dedupByKey_sublist (df : DataFrame) (pk : String) :
    List.Sublist (dedupByKey df pk).rows df.rows := by
  unfold dedupByKey
  cases colIdx df.cols pk
  · exact List.Sublist.refl _
  · exact dedupByKeyAux_sublist df.cols pk [] df.rows

theorem dropNaSubset_sublist (df : DataFrame) (cs : List String) :
    List.Sublist (dropNaSubset df cs).rows df.rows :=
  List.filter_sublist df.rows

theorem filterNonNegCol_sublist (df : DataFrame) (c : String) :
    List.Sublist (filterNonNegCol df c).rows df.rows := by
  unfold filterNonNegCol
  cases colIdx df.cols c
  · exact List.Sublist.refl _
  · exact List.filter_sublist df.rows

theorem filterColInRange_sublist (df : DataFrame) (c : String) (lb ub : ℚ) :
    List.Sublist (filterColInRange df c lb ub).rows df.rows := by
  unfold filterColInRange
  cases colIdx df.cols c
  · exact List.Sublist.refl _
  · exact List.filter_sublist df.rows

theorem iqrFilterClamped_sublist (df : DataFrame) (c : String) :
    List.Sublist (iqrFilterClamped df c).rows df.rows := by
  unfold iqrFilterClamped
  cases colIdx df.cols c
  · exact List.Sublist.refl _
  · exact filterColInRange_sublist _ _ _ _

theorem insertLe_perm {α : Type} (le : α → α → Bool) (x : α) :
    ∀ l : List α, List.Perm (insertLe le x l) (x :: l) := by
  intro l
  induction l with
  | nil => simp [insertLe]
  | cons y ys ih =>
    unfold insertLe
    by_cases h : le x y
    · simp [h]
    · simp only [Bool.not_eq_true] at h
      simp only [h, Bool.false_eq_true, if_false]
      exact (ih.cons y).trans (List.Perm.swap x y ys)

theorem sortLe_perm {α : Type} (le : α → α → Bool) :
    ∀ l : List α, List.Perm (sortLe le l) l := by
  intro l
  induction l with
  | nil => simp [sortLe]
  | cons x xs ih =>
    unfold sortLe
    exact (insertLe_perm le x (sortLe le xs)).trans (ih.cons x)

theorem sortByCol_perm (df : DataFrame) (pk : String) :
    List.Perm (sortByCol df pk).rows df.rows := by
  unfold sortByCol
  cases colIdx df.cols pk
  · exact List.Perm.refl _
  · exact sortLe_perm _ df.rows

theorem mapCol_rows_length (df : DataFrame) (c : String) (f : Val → Val) :
    (mapCol df c f).rows.length = df.rows.length := by
  unfold mapCol
  cases colIdx df.cols c
  · rfl
  · simp

theorem formatUpperTrim_rows_length (df : DataFrame) (c : String) :
    (formatUpperTrim df c).rows.length = df.rows.length :=
  mapCol_rows_length df c upperTrimVal

/-! ### Sortedness of insertion sort under a total boolean order -/

theorem isSortedLe_cons_insertLe {α : Type} {le : α → α → Bool}
    (hT : ∀ a b, le a b = true ∨ le b a = true) (x : α) :
    ∀ (l : List α) (y : α), le y x = true →
      isSortedLe le (y :: l) = true →
      isSortedLe le (y :: insertLe le x l) = true := by
  intro l
  induction l with
  | nil =>
    intro y hyx _
    simp [insertLe, isSortedLe, hyx]
  | cons z zs ih =>
    intro y hyx hsort
    have hyz : le y z = true := by
      simp only [isSortedLe, Bool.and_eq_true] at hsort
      exact hsort.1
    have hzs : isSortedLe le (z :: zs) = true := by
      simp only [isSortedLe, Bool.and_eq_true] at hsort
      exact hsort.2
    unfold insertLe
    by_cases hxz : le x z
    · simp only [if_pos hxz]
      simp [isSortedLe, hyx, hxz, hzs]
    · simp only [Bool.not_eq_true] at hxz
      simp only [hxz, Bool.false_eq_true, if_false]
      have hzx : le z x = true := by
        rcases hT x z with h | h
        · rw [h] at hxz; cases hxz
        · exact h
      have := ih z hzx hzs
      simp only [isSortedLe, Bool.and_eq_true] at this ⊢
      exact ⟨hyz, by
        cases hins : insertLe le x zs with
        | nil => simp [isSortedLe]
        | cons w ws =>
          rw [hins] at this
          simpa [isSortedLe] using this⟩

theorem isSortedLe_insertLe {α : Type} {le : α → α → Bool}
    (hT : ∀ a b, le a b = true ∨ le b a = true) (x : α) :
    ∀ l : List α, isSortedLe le l = true →
      isSortedLe le (insertLe le x l) = true := by
  intro l hl
  cases l with
  | nil => simp [insertLe, isSortedLe]
  | cons y ys =>
    unfold insertLe
    by_cases hxy : le x y
    · simp only [if_pos hxy]
      simp only [isSortedLe, Bool.and_eq_true]
      exact ⟨hxy, hl⟩
    · simp only [Bool.not_eq_true] at hxy
      simp only [hxy, Bool.false_eq_true, if_false]
      have hyx : le y x = true := by
        rcases hT x y with h | h
        · rw [h] at hxy; cases hxy
        · exact h
      exact isSortedLe_cons_insertLe hT x ys y hyx hl

theorem isSortedLe_sortLe {α : Type} {le : α → α → Bool}
    (hT : ∀ a b, le a b = true ∨ le b a = true) :
    ∀ l : List α, isSortedLe le (sortLe le l) = true := by
  intro l
  induction l with
  | nil => simp [sortLe, isSortedLe]
  | cons x xs ih =>
    unfold sortLe
    exact isSortedLe_insertLe hT x _ ih

theorem valLe_total (a b : Val) : valLe a b = true ∨ valLe b a = true := by
  cases a <;> cases b <;> simp [valLe, valRank] <;> exact le_total _ _

theorem rowLeAt_total (i : ℕ) (r s : Row) :
    rowLeAt i r s = true ∨ rowLeAt i s r = true :=
  valLe_total _ _

theorem isSortedLe_map {α β : Type} (f : α → β) (le' : α → α → Bool)
    (le : β → β → Bool) (hcomm : ∀ a b, le' a b = le (f a) (f b)) :
    ∀ l : List α, isSortedLe le' l = true →
      isSortedLe le (l.map f) = true := by
  intro l
  induction l with
  | nil => simp [isSortedLe]
  | cons x xs ih =>
    cases xs with
    | nil => simp [isSortedLe]
    | cons y ys =>
      intro h
      simp only [isSortedLe, Bool.and_eq_true] at h
      have := ih h.2
      simp only [List.map_cons, isSortedLe, Bool.and_eq_true]
      constructor
      · rw [← hcomm]
        exact h.1
      · simpa [List.map_cons] using this

theorem isSortedLe_map_const_null (rs : List Row) :
    isSortedLe valLe (rs.map (fun _ => Val.null)) = true := by
  induction rs with
  | nil => simp [isSortedLe]
  | cons r rs ih =>
    cases rs with
    | nil => simp [isSortedLe]
    | cons s ss =>
      simp only [List.map_cons, isSortedLe, Bool.and_eq_true] at ih ⊢
      refine ⟨by simp [valLe, valRank], ?_⟩
      simpa [List.map_cons] using ih

/-- The output of `sortByCol` is sorted ascending by the key column
(keys of an absent column read as missing, which are mutually
ordered). -/
theorem sortByCol_sorted (df : DataFrame) (pk : String) :
    isSortedLe valLe (colVals (sortByCol df pk) pk) = true := by
  unfold colVals
  rw [sortByCol_cols]
  unfold sortByCol
  cases hidx : colIdx df.cols pk with
  | none =>
    have hnull : ∀ r : Row, getCell df.cols pk r = Val.null := by
      intro r; unfold getCell; rw [hidx]
    have hmap : List.map (getCell df.cols pk) df.rows =
        df.rows.map (fun _ => Val.null) :=
      List.map_congr_left (fun r _ => hnull r)
    rw [hmap]
    exact isSortedLe_map_const_null df.rows
  | some i =>
    have hget : ∀ r : Row, getCell df.cols pk r = r.getD i Val.null := by
      intro r; unfold getCell; rw [hidx]
    apply isSortedLe_map (getCell df.cols pk) (rowLeAt i) valLe
    · intro a b
      simp [rowLeAt, hget]
    · exact isSortedLe_sortLe (rowLeAt_total i) _

/-! ### Cell-level facts about the row transforms -/

theorem mapCol_rows_none {df : DataFrame} {c : String} {f : Val → Val}
    (h : colIdx df.cols c = none) : (mapCol df c f).rows = df.rows := by
  unfold mapCol; rw [h]

theorem mapCol_rows_some {df : DataFrame} {c : String} {f : Val → Val} {i : ℕ}
    (h : colIdx df.cols c = some i) :
    (mapCol df c f).rows =
      df.rows.map (fun r => r.set i (f (r.getD i Val.null))) := by
  unfold mapCol; rw [h]

theorem getCell_eq_getD {cols : List String} {c : String} {i : ℕ}
    (h : colIdx cols c = some i) (r : Row) :
    getCell cols c r = r.getD i Val.null := by
  unfold getCell
  rw [h]

theorem getCell_eq_null_of_none {cols : List String} {c : String}
    (h : colIdx cols c = none) (r : Row) : getCell cols c r = Val.null := by
  unfold getCell
  rw [h]

theorem getCell_set_mapped {cols : List String} {c : String} {i : ℕ}
    (h : colIdx cols c = some i) (f : Val → Val) (r : Row) :
    getCell cols c (r.set i (f (r.getD i Val.null))) = f (getCell cols c r) ∨
    (getCell cols c r = Val.null ∧
      getCell cols c (r.set i (f (r.getD i Val.null))) = Val.null) := by
  rw [getCell_eq_getD h, getCell_eq_getD h]
  by_cases hlt : i < r.length
  · left
    exact listGetD_set_self _ _ r i hlt
  · right
    have hge : r.length ≤ i := le_of_not_lt hlt
    rw [listSet_of_length_le _ r i hge, listGetD_eq_default _ r i hge]
    exact ⟨rfl, rfl⟩

theorem getCell_set_other {cols : List String} {c c' : String} {i : ℕ}
    (h : colIdx cols c = some i) (hcc : c' ≠ c) (v : Val) (r : Row) :
    getCell cols c' (r.set i v) = getCell cols c' r := by
  unfold getCell
  cases hidx : colIdx cols c' with
  | none => rfl
  | some j => exact listGetD_set_ne _ _ r i j (colIdx_ne h hidx hcc.symm)

theorem cellProp_mapCol {df : DataFrame} {c c' : String} {f : Val → Val}
    {Q : Val → Prop} (hcc : c' ≠ c)
    (h : ∀ r ∈ df.rows, Q (getCell df.cols c' r)) :
    ∀ r ∈ (mapCol df c f).rows, Q (getCell df.cols c' r) := by
  intro r hr
  cases hidx : colIdx df.cols c with
  | none =>
    rw [mapCol_rows_none hidx] at hr
    exact h r hr
  | some i =>
    rw [mapCol_rows_some hidx] at hr
    rcases List.mem_map.mp hr with ⟨r0, hr0, rfl⟩
    rw [getCell_set_other hidx hcc]
    exact h r0 hr0

theorem rowProp_subset {P : Row → Prop} {rows rows' : List Row}
    (hs : rows' ⊆ rows) (h : ∀ r ∈ rows, P r) : ∀ r ∈ rows', P r :=
  fun r hr => h r (hs hr)

theorem dropNaSubset_notNull {df : DataFrame} {crits : List String}
    {c : String} (hc : c ∈ crits) (hmem : c ∈ df.cols) :
    ∀ r ∈ (dropNaSubset df crits).rows, getCell df.cols c r ≠ Val.null := by
  intro r hr
  unfold dropNaSubset at hr
  simp only [List.mem_filter] at hr
  have hall := hr.2
  rw [List.all_eq_true] at hall
  have hcex : c ∈ crits.filter (fun c => (colIdx df.cols c).isSome) :=
    List.mem_filter.mpr ⟨hc, colIdx_isSome_iff.mpr hmem⟩
  have := hall c hcex
  simpa using this

theorem filterNonNegCol_nonneg {df : DataFrame} {c : String} {i : ℕ}
    (h : colIdx df.cols c = some i) :
    ∀ r ∈ (filterNonNegCol df c).rows,
      ∃ q : ℚ, getCell df.cols c r = Val.num q ∧ 0 ≤ q := by
  intro r hr
  unfold filterNonNegCol at hr
  rw [h] at hr
  simp only [List.mem_filter] at hr
  have hp := hr.2
  rw [getCell_eq_getD h]
  cases hv : r.getD i Val.null with
  | num q =>
    rw [hv] at hp
    exact ⟨q, rfl, by simpa using hp⟩
  | str s => rw [hv] at hp; simp at hp
  | date d => rw [hv] at hp; simp at hp
  | null => rw [hv] at hp; simp at hp

theorem filterColInRange_inRange {df : DataFrame} {c : String} {i : ℕ}
    {lb ub : ℚ} (h : colIdx df.cols c = some i) :
    ∀ r ∈ (filterColInRange df c lb ub).rows,
      ∃ q : ℚ, getCell df.cols c r = Val.num q ∧ lb ≤ q ∧ q ≤ ub := by
  intro r hr
  unfold filterColInRange at hr
  rw [h] at hr
  simp only [List.mem_filter] at hr
  have hp := hr.2
  rw [getCell_eq_getD h]
  cases hv : r.getD i Val.null with
  | num q =>
    rw [hv] at hp
    simp only [Bool.and_eq_true, decide_eq_true_eq] at hp
    exact ⟨q, rfl, hp.1, hp.2⟩
  | str s => rw [hv] at hp; simp at hp
  | date d => rw [hv] at hp; simp at hp
  | null => rw [hv] at hp; simp at hp

/-! ### Key uniqueness after keyed deduplication -/

theorem dedupByKeyAux_nodup (cols : List String) (pk : String) :
    ∀ (l : List Row) (seen : List Val),
      ((dedupByKeyAux cols pk seen l).map (getCell cols pk)).Nodup ∧
      ∀ v ∈ (dedupByKeyAux cols pk seen l).map (getCell cols pk), v ∉ seen := by
  intro l
  induction l with
  | nil => intro seen; simp [dedupByKeyAux]
  | cons r rs ih =>
    intro seen
    unfold dedupByKeyAux
    by_cases hr : getCell cols pk r ∈ seen
    · simp only [if_pos hr]
      exact ih seen
    · simp only [if_neg hr, List.map_cons]
      obtain ⟨hnd, hns⟩ := ih (getCell cols pk r :: seen)
      refine ⟨List.nodup_cons.mpr ⟨?_, hnd⟩, ?_⟩
      · intro hmem
        exact (hns _ hmem) (List.mem_cons_self _ _)
      · intro v hv hvseen
        rcases List.mem_cons.mp hv with rfl | hv'
        · exact hr hvseen
        · exact (hns v hv') (List.mem_cons_of_mem _ hvseen)

theorem dedupByKey_nodup {df : DataFrame} {pk : String} (hmem : pk ∈ df.cols) :
    (colVals (dedupByKey df pk) pk).Nodup := by
  unfold colVals
  rw [dedupByKey_cols]
  unfold dedupByKey
  cases hidx : colIdx df.cols pk with
  | none =>
    have := colIdx_isSome_iff.mpr hmem
    rw [hidx] at this
    simp at this
  | some i =>
    exact (dedupByKeyAux_nodup df.cols pk df.rows []).1

theorem colVals_mapCol {df : DataFrame} {c c' : String} {f : Val → Val}
    (hcc : c' ≠ c) : colVals (mapCol df c f) c' = colVals df c' := by
  unfold colVals
  rw [mapCol_cols]
  cases hidx : colIdx df.cols c with
  | none => rw [mapCol_rows_none hidx]
  | some i =>
    rw [mapCol_rows_some hidx, List.map_map]
    exact List.map_congr_left
      (fun r _ => getCell_set_other hidx hcc _ r)

theorem nodup_colVals_sublist {df df' : DataFrame} {pk : String}
    (hcols : df'.cols = df.cols) (hs : List.Sublist df'.rows df.rows)
    (h : (colVals df pk).Nodup) : (colVals df' pk).Nodup := by
  unfold colVals at h ⊢
  rw [hcols]
  exact List.Nodup.sublist (hs.map (getCell df.cols pk)) h

theorem nodup_colVals_perm {df df' : DataFrame} {pk : String}
    (hcols : df'.cols = df.cols) (hp : List.Perm df'.rows df.rows)
    (h : (colVals df pk).Nodup) : (colVals df' pk).Nodup := by
  unfold colVals at h ⊢
  rw [hcols]
  exact ((hp.map (getCell df.cols pk)).nodup_iff).mpr h

/-! ### Transfer lemmas stated over the ambient column list -/

theorem cellProp_mapColAmb {df : DataFrame} {cols : List String}
    (hcols : df.cols = cols) {c c' : String} {f : Val → Val} {Q : Val → Prop}
    (hcc : c' ≠ c) (h : ∀ r ∈ df.rows, Q (getCell cols c' r)) :
    ∀ r ∈ (mapCol df c f).rows, Q (getCell cols c' r) := by
  subst hcols
  exact cellProp_mapCol hcc h

theorem dropNaSubset_notNullAmb {df : DataFrame} {cols : List String}
    (hcols : df.cols = cols) {crits : List String} {c : String}
    (hc : c ∈ crits) (hmem : c ∈ cols) :
    ∀ r ∈ (dropNaSubset df crits).rows, getCell cols c r ≠ Val.null := by
  subst hcols
  exact dropNaSubset_notNull hc hmem

theorem filterNonNegCol_nonnegAmb {df : DataFrame} {cols : List String}
    (hcols : df.cols = cols) {c : String} (hmem : c ∈ cols) :
    ∀ r ∈ (filterNonNegCol df c).rows,
      ∃ q : ℚ, getCell cols c r = Val.num q ∧ 0 ≤ q := by
  subst hcols
  obtain ⟨i, hi⟩ := Option.isSome_iff_exists.mp (colIdx_isSome_iff.mpr hmem)
  exact filterNonNegCol_nonneg hi

theorem filterColInRange_inRangeAmb {df : DataFrame} {cols : List String}
    (hcols : df.cols = cols) {c : String} (hmem : c ∈ cols) {lb ub : ℚ} :
    ∀ r ∈ (filterColInRange df c lb ub).rows,
      ∃ q : ℚ, getCell cols c r = Val.num q ∧ lb ≤ q ∧ q ≤ ub := by
  subst hcols
  obtain ⟨i, hi⟩ := Option.isSome_iff_exists.mp (colIdx_isSome_iff.mpr hmem)
  exact filterColInRange_inRange hi

/-! ### Composite column and length lemmas for the three cleaners -/

@[simp]
theorem salesAfterCriticalDrop_cols (df : DataFrame) :
    (salesAfterCriticalDrop df).cols = df.cols := by
  unfold salesAfterCriticalDrop
  rw [dropNaSubset_cols, mapCol_cols, mapCol_cols, mapCol_cols, mapCol_cols,
    dedupRows_cols]

@[simp]
theorem salesPreOutlier_cols (df : DataFrame) :
    (salesPreOutlier df).cols = df.cols := by
  unfold salesPreOutlier
  rw [filterNonNegCol_cols, filterNonNegCol_cols, formatUpperTrim_cols,
    salesAfterCriticalDrop_cols]

@[simp]
theorem salesOutlierStep_cols (df : DataFrame) :
    (salesOutlierStep df).cols = df.cols := by
  unfold salesOutlierStep
  cases colIdx (salesPreOutlier df).cols "SaleAmount"
  · exact salesPreOutlier_cols df
  · rw [filterColInRange_cols, salesPreOutlier_cols]

@[simp]
theorem clean_sales_data_cols (df : DataFrame) :
    (clean_sales_data df).cols = df.cols := by
  unfold clean_sales_data
  rw [sortByCol_cols, mapCol_cols, salesOutlierStep_cols]

@[simp]
theorem clean_customers_data_cols (df : DataFrame) :
    (clean_customers_data df).cols = df.cols := by
  unfold clean_customers_data
  rw [sortByCol_cols, iqrFilterClamped_cols, mapCol_cols, mapCol_cols,
    mapCol_cols, mapCol_cols, dropNaSubset_cols, formatUpperTrim_cols,
    formatUpperTrim_cols, dedupByKey_cols]

@[simp]
theorem clean_products_data_cols (df : DataFrame) :
    (clean_products_data df).cols = df.cols := by
  unfold clean_products_data
  rw [sortByCol_cols, iqrFilterClamped_cols, filterNonNegCol_cols,
    mapCol_cols, mapCol_cols, mapCol_cols, dropNaSubset_cols,
    formatUpperTrim_cols, formatUpperTrim_cols, dedupByKey_cols]

theorem salesOutlierStep_rows_subset (df : DataFrame) :
    (salesOutlierStep df).rows ⊆ (salesPreOutlier df).rows := by
  unfold salesOutlierStep
  cases colIdx (salesPreOutlier df).cols "SaleAmount"
  · exact fun r hr => hr
  · exact List.Sublist.subset (filterColInRange_sublist _ _ _ _)

theorem clean_sales_rows_le (df : DataFrame) :
    (clean_sales_data df).rows.length ≤ df.rows.length := by
  unfold clean_sales_data
  refine le_trans (le_of_eq (List.Perm.length_eq (sortByCol_perm _ _))) ?_
  rw [mapCol_rows_length]
  have hout : (salesOutlierStep df).rows.length ≤
      (salesPreOutlier df).rows.length := by
    unfold salesOutlierStep
    cases colIdx (salesPreOutlier df).cols "SaleAmount"
    · exact le_refl _
    · exact List.Sublist.length_le (filterColInRange_sublist _ _ _ _)
  refine le_trans hout ?_
  have hpre : (salesPreOutlier df).rows.length ≤
      (salesAfterCriticalDrop df).rows.length := by
    unfold salesPreOutlier
    refine le_trans (List.Sublist.length_le (filterNonNegCol_sublist _ _)) ?_
    refine le_trans (List.Sublist.length_le (filterNonNegCol_sublist _ _)) ?_
    rw [formatUpperTrim_rows_length]
  refine le_trans hpre ?_
  unfold salesAfterCriticalDrop
  refine le_trans (List.Sublist.length_le (dropNaSubset_sublist _ _)) ?_
  rw [mapCol_rows_length, mapCol_rows_length, mapCol_rows_length,
    mapCol_rows_length]
  exact List.Sublist.length_le (dedupRows_sublist _)

theorem clean_customers_rows_le (df : DataFrame) :
    (clean_customers_data df).rows.length ≤ df.rows.length := by
  unfold clean_customers_data
  refine le_trans (le_of_eq (List.Perm.length_eq (sortByCol_perm _ _))) ?_
  refine le_trans (List.Sublist.length_le (iqrFilterClamped_sublist _ _)) ?_
  rw [mapCol_rows_length, mapCol_rows_length, mapCol_rows_length,
    mapCol_rows_length]
  refine le_trans (List.Sublist.length_le (dropNaSubset_sublist _ _)) ?_
  rw [formatUpperTrim_rows_length, formatUpperTrim_rows_length]
  exact List.Sublist.length_le (dedupByKey_sublist _ _)

theorem clean_products_rows_le (df : DataFrame) :
    (clean_products_data df).rows.length ≤ df.rows.length := by
  unfold clean_products_data
  refine le_trans (le_of_eq (List.Perm.length_eq (sortByCol_perm _ _))) ?_
  refine le_trans (List.Sublist.length_le (iqrFilterClamped_sublist _ _)) ?_
  refine le_trans (List.Sublist.length_le (filterNonNegCol_sublist _ _)) ?_
  rw [mapCol_rows_length, mapCol_rows_length, mapCol_rows_length]
  refine le_trans (List.Sublist.length_le (dropNaSubset_sublist _ _)) ?_
  rw [formatUpperTrim_rows_length, formatUpperTrim_rows_length]
  exact List.Sublist.length_le (dedupByKey_sublist _ _)

/-! ### Critical-column invariants of the cleaned outputs -/

theorem nodup_colVals_mapCol {df : DataFrame} {c c' : String} {f : Val → Val}
    (hcc : c' ≠ c) (h : (colVals df c').Nodup) :
    (colVals (mapCol df c f) c').Nodup := by
  rw [colVals_mapCol hcc]
  exact h

theorem clean_sales_notNull_of_critical (df : DataFrame) {c : String}
    (hc : c ∈ salesCriticalColumns) (hcs : c ≠ "SaleDate")
    (hmem : c ∈ df.cols) :
    ∀ r ∈ (clean_sales_data df).rows, getCell df.cols c r ≠ Val.null := by
  have hcState : c ≠ "State" := by fin_cases hc <;> decide
  unfold clean_sales_data
  refine rowProp_subset (List.Perm.subset (sortByCol_perm _ _)) ?_
  refine cellProp_mapColAmb (Q := fun v => v ≠ Val.null) (salesOutlierStep_cols df) hcs ?_
  refine rowProp_subset (salesOutlierStep_rows_subset df) ?_
  unfold salesPreOutlier
  refine rowProp_subset (List.Sublist.subset (filterNonNegCol_sublist _ _)) ?_
  refine rowProp_subset (List.Sublist.subset (filterNonNegCol_sublist _ _)) ?_
  unfold formatUpperTrim
  refine cellProp_mapColAmb (Q := fun v => v ≠ Val.null) (by simp) hcState ?_
  unfold salesAfterCriticalDrop
  exact dropNaSubset_notNullAmb (by simp) hc hmem

theorem clean_sales_saleAmount_inRange (df : DataFrame)
    (hmem : "SaleAmount" ∈ df.cols) :
    ∀ r ∈ (clean_sales_data df).rows,
      ∃ q : ℚ, getCell df.cols "SaleAmount" r = Val.num q ∧
        salesLB df ≤ q ∧ q ≤ salesUB df := by
  unfold clean_sales_data
  refine rowProp_subset (List.Perm.subset (sortByCol_perm _ _)) ?_
  refine cellProp_mapColAmb
    (Q := fun v => ∃ q, v = Val.num q ∧ salesLB df ≤ q ∧ q ≤ salesUB df)
    (salesOutlierStep_cols df) (by decide) ?_
  unfold salesOutlierStep
  cases hidx : colIdx (salesPreOutlier df).cols "SaleAmount" with
  | none =>
    exfalso
    have hin : "SaleAmount" ∈ (salesPreOutlier df).cols := by
      rw [salesPreOutlier_cols]; exact hmem
    have h2 := colIdx_isSome_iff.mpr hin
    rw [hidx] at h2
    simp at h2
  | some i =>
    exact filterColInRange_inRangeAmb (salesPreOutlier_cols df) hmem

theorem clean_sales_shipping_nonneg (df : DataFrame)
    (hmem : "Shipping" ∈ df.cols) :
    ∀ r ∈ (clean_sales_data df).rows,
      ∃ q : ℚ, getCell df.cols "Shipping" r = Val.num q ∧ 0 ≤ q := by
  unfold clean_sales_data
  refine rowProp_subset (List.Perm.subset (sortByCol_perm _ _)) ?_
  refine cellProp_mapColAmb (Q := fun v => ∃ q, v = Val.num q ∧ 0 ≤ q)
    (salesOutlierStep_cols df) (by decide) ?_
  refine rowProp_subset (salesOutlierStep_rows_subset df) ?_
  unfold salesPreOutlier
  exact filterNonNegCol_nonnegAmb (by simp) hmem

theorem toDatetime_shape (v : Val) :
    toDatetime v = Val.null ∨ ∃ d, toDatetime v = Val.date d := by
  cases v with
  | num q => exact Or.inr ⟨⌊q⌋, rfl⟩
  | str s =>
    cases hp : parseDate s with
    | none =>
      left
      simp [toDatetime, hp]
    | some d =>
      right
      exact ⟨d, by simp [toDatetime, hp]⟩
  | date d => exact Or.inr ⟨d, rfl⟩
  | null => exact Or.inl rfl

theorem clean_sales_saleDate_shape (df : DataFrame) :
    ∀ r ∈ (clean_sales_data df).rows,
      getCell df.cols "SaleDate" r = Val.null ∨
      ∃ d, getCell df.cols "SaleDate" r = Val.date d := by
  unfold clean_sales_data
  intro r hr
  have hr2 : r ∈ (mapCol (salesOutlierStep df) "SaleDate" toDatetime).rows :=
    (sortByCol_perm _ _).subset hr
  cases hidx : colIdx (salesOutlierStep df).cols "SaleDate" with
  | none =>
    left
    have hn : colIdx df.cols "SaleDate" = none := by
      rw [← salesOutlierStep_cols df]; exact hidx
    exact getCell_eq_null_of_none hn r
  | some i =>
    rw [mapCol_rows_some hidx] at hr2
    rcases List.mem_map.mp hr2 with ⟨r0, _, rfl⟩
    rw [← salesOutlierStep_cols df]
    rcases getCell_set_mapped hidx toDatetime r0 with he | ⟨_, he⟩
    · rw [he]
      exact toDatetime_shape _
    · exact Or.inl he

theorem clean_sales_reclean_saleDate (df : DataFrame)
    (hmem : "SaleDate" ∈ df.cols) :
    ∀ r ∈ (clean_sales_data (clean_sales_data df)).rows,
      ∃ d, getCell df.cols "SaleDate" r = Val.date d := by
  have hshape4 : ∀ r ∈ (salesAfterCriticalDrop (clean_sales_data df)).rows,
      getCell df.cols "SaleDate" r = Val.null ∨
      ∃ d, getCell df.cols "SaleDate" r = Val.date d := by
    unfold salesAfterCriticalDrop
    refine rowProp_subset (List.Sublist.subset (dropNaSubset_sublist _ _)) ?_
    refine cellProp_mapColAmb (Q := fun v => v = Val.null ∨ ∃ d, v = Val.date d) (by simp) (by decide) ?_
    refine cellProp_mapColAmb (Q := fun v => v = Val.null ∨ ∃ d, v = Val.date d) (by simp) (by decide) ?_
    refine cellProp_mapColAmb (Q := fun v => v = Val.null ∨ ∃ d, v = Val.date d) (by simp) (by decide) ?_
    refine cellProp_mapColAmb (Q := fun v => v = Val.null ∨ ∃ d, v = Val.date d) (by simp) (by decide) ?_
    refine rowProp_subset (List.Sublist.subset (dedupRows_sublist _)) ?_
    exact clean_sales_saleDate_shape df
  have hnn4 : ∀ r ∈ (salesAfterCriticalDrop (clean_sales_data df)).rows,
      getCell df.cols "SaleDate" r ≠ Val.null := by
    unfold salesAfterCriticalDrop
    exact dropNaSubset_notNullAmb (by simp)
      (by simp [salesCriticalColumns]) hmem
  have hdrop : ∀ r ∈ (salesAfterCriticalDrop (clean_sales_data df)).rows,
      ∃ d, getCell df.cols "SaleDate" r = Val.date d := by
    intro r hr
    rcases hshape4 r hr with hnull | hd
    · exact absurd hnull (hnn4 r hr)
    · exact hd
  have hmid : ∀ r ∈ (salesOutlierStep (clean_sales_data df)).rows,
      ∃ d, getCell df.cols "SaleDate" r = Val.date d := by
    refine rowProp_subset (salesOutlierStep_rows_subset _) ?_
    unfold salesPreOutlier
    refine rowProp_subset (List.Sublist.subset (filterNonNegCol_sublist _ _)) ?_
    refine rowProp_subset (List.Sublist.subset (filterNonNegCol_sublist _ _)) ?_
    unfold formatUpperTrim
    refine cellProp_mapColAmb (Q := fun v => ∃ d, v = Val.date d) (by simp) (by decide) ?_
    exact hdrop
  intro r hr
  unfold clean_sales_data at hr
  have hr2 : r ∈ (mapCol (salesOutlierStep (clean_sales_data df)) "SaleDate"
      toDatetime).rows :=
    (sortByCol_perm _ _).subset hr
  cases hidx : colIdx (salesOutlierStep (clean_sales_data df)).cols
      "SaleDate" with
  | none =>
    exfalso
    have hin : "SaleDate" ∈ (salesOutlierStep (clean_sales_data df)).cols := by
      simp [hmem]
    have h2 := colIdx_isSome_iff.mpr hin
    rw [hidx] at h2
    simp at h2
  | some i =>
    rw [mapCol_rows_some hidx] at hr2
    rcases List.mem_map.mp hr2 with ⟨r0, hr0, rfl⟩
    obtain ⟨d, hd⟩ := hmid r0 hr0
    have hcolseq : (salesOutlierStep (clean_sales_data df)).cols = df.cols := by
      simp
    rw [← hcolseq] at hd ⊢
    rcases getCell_set_mapped hidx toDatetime r0 with he | ⟨hnull, _⟩
    · rw [he, hd]
      exact ⟨d, rfl⟩
    · rw [hd] at hnull
      cases hnull

theorem clean_sales_reclean_notNull (df : DataFrame) {c : String}
    (hc : c ∈ salesCriticalColumns) (hmem : c ∈ df.cols) :
    ∀ r ∈ (clean_sales_data (clean_sales_data df)).rows,
      getCell df.cols c r ≠ Val.null := by
  by_cases hcs : c = "SaleDate"
  · subst hcs
    intro r hr
    obtain ⟨d, hd⟩ := clean_sales_reclean_saleDate df hmem r hr
    rw [hd]
    simp
  · have hmem2 : c ∈ (clean_sales_data df).cols := by
      rw [clean_sales_data_cols]; exact hmem
    have h := clean_sales_notNull_of_critical (clean_sales_data df) hc hcs hmem2
    rw [clean_sales_data_cols] at h
    exact h

theorem clean_customers_notNull_of_critical (df : DataFrame) {c : String}
    (hc : c ∈ customersCriticalColumns) (hmem : c ∈ df.cols) :
    ∀ r ∈ (clean_customers_data df).rows, getCell df.cols c r ≠ Val.null := by
  have h1 : c ≠ "JoinDate" := by fin_cases hc <;> decide
  have h2 : c ≠ "ShoppingFrequency" := by fin_cases hc <;> decide
  have h3 : c ≠ "NumberOfPurshases" := by fin_cases hc <;> decide
  have h4 : c ≠ "Region" := by fin_cases hc <;> decide
  unfold clean_customers_data
  refine rowProp_subset (List.Perm.subset (sortByCol_perm _ _)) ?_
  refine rowProp_subset (List.Sublist.subset (iqrFilterClamped_sublist _ _)) ?_
  refine cellProp_mapColAmb (Q := fun v => v ≠ Val.null) (by simp) h1 ?_
  refine cellProp_mapColAmb (Q := fun v => v ≠ Val.null) (by simp) h2 ?_
  refine cellProp_mapColAmb (Q := fun v => v ≠ Val.null) (by simp) h3 ?_
  refine cellProp_mapColAmb (Q := fun v => v ≠ Val.null) (by simp) h4 ?_
  exact dropNaSubset_notNullAmb (by simp) hc hmem

theorem clean_products_notNull_of_critical (df : DataFrame) {c : String}
    (hc : c ∈ productsCriticalColumns) (hmem : c ∈ df.cols) :
    ∀ r ∈ (clean_products_data df).rows, getCell df.cols c r ≠ Val.null := by
  have h1 : c ≠ "Price" := by fin_cases hc <;> decide
  have h2 : c ≠ "Category" := by fin_cases hc <;> decide
  unfold clean_products_data
  refine rowProp_subset (List.Perm.subset (sortByCol_perm _ _)) ?_
  refine rowProp_subset (List.Sublist.subset (iqrFilterClamped_sublist _ _)) ?_
  refine rowProp_subset (List.Sublist.subset (filterNonNegCol_sublist _ _)) ?_
  refine cellProp_mapColAmb (Q := fun v => v ≠ Val.null) (by simp) h1 ?_
  refine cellProp_mapColAmb (Q := fun v => v ≠ Val.null) (by simp) h1 ?_
  refine cellProp_mapColAmb (Q := fun v => v ≠ Val.null) (by simp) h2 ?_
  exact dropNaSubset_notNullAmb (by simp) hc hmem

theorem clean_customers_nodup (df : DataFrame)
    (hmem : "CustomerID" ∈ df.cols) :
    (colVals (clean_customers_data df) "CustomerID").Nodup := by
  unfold clean_customers_data
  refine nodup_colVals_perm (sortByCol_cols _ _) (sortByCol_perm _ _) ?_
  refine nodup_colVals_sublist (iqrFilterClamped_cols _ _)
    (iqrFilterClamped_sublist _ _) ?_
  refine nodup_colVals_mapCol (by decide) ?_
  refine nodup_colVals_mapCol (by decide) ?_
  refine nodup_colVals_mapCol (by decide) ?_
  refine nodup_colVals_mapCol (by decide) ?_
  refine nodup_colVals_sublist (dropNaSubset_cols _ _)
    (dropNaSubset_sublist _ _) ?_
  unfold formatUpperTrim
  refine nodup_colVals_mapCol (by decide) ?_
  refine nodup_colVals_mapCol (by decide) ?_
  exact dedupByKey_nodup hmem

theorem clean_products_nodup (df : DataFrame)
    (hmem : "ProductID" ∈ df.cols) :
    (colVals (clean_products_data df) "ProductID").Nodup := by
  unfold clean_products_data
  refine nodup_colVals_perm (sortByCol_cols _ _) (sortByCol_perm _ _) ?_
  refine nodup_colVals_sublist (iqrFilterClamped_cols _ _)
    (iqrFilterClamped_sublist _ _) ?_
  refine nodup_colVals_sublist (filterNonNegCol_cols _ _)
    (filterNonNegCol_sublist _ _) ?_
  refine nodup_colVals_mapCol (by decide) ?_
  refine nodup_colVals_mapCol (by decide) ?_
  refine nodup_colVals_mapCol (by decide) ?_
  refine nodup_colVals_sublist (dropNaSubset_cols _ _)
    (dropNaSubset_sublist _ _) ?_
  unfold formatUpperTrim
  refine nodup_colVals_mapCol (by decide) ?_
  refine nodup_colVals_mapCol (by decide) ?_
  exact dedupByKey_nodup hmem

/-! ### Sortedness of the cleaned outputs -/

theorem clean_sales_sorted (df : DataFrame) :
    isSortedLe valLe (colVals (clean_sales_data df) "TransactionID") = true := by
  unfold clean_sales_data
  exact sortByCol_sorted _ _

theorem clean_customers_sorted (df : DataFrame) :
    isSortedLe valLe (colVals (clean_customers_data df) "CustomerID") = true := by
  unfold clean_customers_data
  exact sortByCol_sorted _ _

theorem clean_products_sorted (df : DataFrame) :
    isSortedLe valLe (colVals (clean_products_data df) "ProductID") = true := by
  unfold clean_products_data
  exact sortByCol_sorted _ _

/-! ### Shape of the cube output -/

theorem gcn_foldl_append (g : String × List String → List String) :
    ∀ (ms : Measures) (acc : List String),
      ms.foldl (fun acc m => acc ++ g m) acc = acc ++ ms.flatMap g := by
  intro ms
  induction ms with
  | nil => intro acc; simp
  | cons m ms ih =>
    intro acc
    simp only [List.foldl_cons, List.flatMap_cons]
    rw [ih]
    simp [List.append_assoc]

theorem generate_column_names_eq (dimensions : List String)
    (measures : Measures) :
    generate_column_names dimensions measures =
      (dimensions ++ measures.flatMap
        (fun m => m.2.map (fun func => m.1 ++ "_" ++ func))).map
        rstripUnderscore := by
  unfold generate_column_names
  rw [gcn_foldl_append]

theorem generate_column_names_length (dimensions : List String)
    (measures : Measures) :
    (generate_column_names dimensions measures).length =
      dimensions.length + (measures.map (fun m => m.2.length)).sum := by
  rw [generate_column_names_eq, List.length_map, List.length_append]
  congr 1
  induction measures with
  | nil => simp
  | cons m ms ih =>
    simp only [List.flatMap_cons, List.length_append, List.map_cons,
      List.sum_cons, List.length_map]
    rw [ih]

theorem aggCells_length (df : DataFrame) (dims : List String)
    (measures : Measures) (key : List Val) :
    (aggCells df dims measures key).length =
      (measures.map (fun m => m.2.length)).sum := by
  unfold aggCells
  induction measures with
  | nil => simp
  | cons m ms ih =>
    simp only [List.flatMap_cons, List.length_append, List.map_cons,
      List.sum_cons, List.length_map]
    rw [ih]

theorem create_olap_cube_ok {df : DataFrame} {dims : List String}
    {measures : Measures} {cube : DataFrame}
    (h : create_olap_cube df dims measures = .ok cube) :
    cube = ⟨generate_column_names dims measures,
      (distinctNonNullKeys df dims).map
        (fun k => k ++ aggCells df dims measures k)⟩ := by
  unfold create_olap_cube at h
  split_ifs at h
  any_goals cases h
  rfl

/-! ### The driver loop of the cleaning entry point -/

theorem processAll_no_fatal {α : Type} :
    ∀ js : List (FileOutcome α),
      (∀ j ∈ js, ∀ m : String, j ≠ .error (.fatal m)) →
      processAll js = .ok (js.map fileOutcomeResult) := by
  intro js
  induction js with
  | nil => intro _; rfl
  | cons j js ih =>
    intro h
    have htail : ∀ j2 ∈ js, ∀ m : String, j2 ≠ .error (.fatal m) :=
      fun j2 hj2 => h j2 (List.mem_cons_of_mem _ hj2)
    cases j with
    | ok a =>
      unfold processAll
      rw [ih htail]
      rfl
    | error e =>
      cases e with
      | missingInput =>
        unfold processAll
        rw [ih htail]
        rfl
      | fatal m =>
        exact absurd rfl (h _ (List.mem_cons_self _ _) m)

theorem processAll_fatal_aborts {α : Type} :
    ∀ (pre : List (FileOutcome α)) (post : List (FileOutcome α)) (m : String),
      (∀ j ∈ pre, ∀ m2 : String, j ≠ .error (.fatal m2)) →
      processAll (pre ++ .error (.fatal m) :: post) = .error (.fatal m) := by
  intro pre
  induction pre with
  | nil => intro post m _; rfl
  | cons j pre ih =>
    intro post m h
    have htail : ∀ j2 ∈ pre, ∀ m2 : String, j2 ≠ .error (.fatal m2) :=
      fun j2 hj2 => h j2 (List.mem_cons_of_mem _ hj2)
    cases j with
    | ok a =>
      simp only [List.cons_append]
      unfold processAll
      rw [ih post m htail]
      rfl
    | error e =>
      cases e with
      | missingInput =>
        simp only [List.cons_append]
        unfold processAll
        rw [ih post m htail]
        rfl
      | fatal m2 =>
        exact absurd rfl (h _ (List.mem_cons_self _ _) m2)

/-! ### The cube on an empty fact table -/

theorem create_olap_cube_empty {df : DataFrame} {dims : List String}
    {measures : Measures} (hrows : df.rows = []) (hdims : dims ≠ [])
    (hd : ∀ d ∈ dims, d ∈ df.cols) (hm : ∀ m ∈ measures, m.1 ∈ df.cols)
    (hf : ∀ m ∈ measures, ∀ f ∈ m.2, f ∈ supportedAggs) :
    create_olap_cube df dims measures =
      Except.ok ⟨generate_column_names dims measures, []⟩ := by
  have g1 : ¬(dims.isEmpty = true) := by
    cases dims with
    | nil => exact absurd rfl hdims
    | cons d ds => simp [List.isEmpty]
  have g2 : (dims.all fun d => (colIdx df.cols d).isSome) = true := by
    rw [List.all_eq_true]
    intro d hdm
    exact colIdx_isSome_iff.mpr (hd d hdm)
  have g3 : (measures.all fun m => (colIdx df.cols m.1).isSome) = true := by
    rw [List.all_eq_true]
    intro m hmm
    exact colIdx_isSome_iff.mpr (hm m hmm)
  have g4 : (measures.all fun m =>
      m.2.all fun f => decide (f ∈ supportedAggs)) = true := by
    rw [List.all_eq_true]
    intro m hmm
    rw [List.all_eq_true]
    intro f hfm
    exact decide_eq_true (hf m hmm f hfm)
  have hkeys : distinctNonNullKeys df dims = [] := by
    unfold distinctNonNullKeys dimKeys
    rw [hrows]
    rfl
  unfold create_olap_cube
  rw [if_neg g1, if_neg (by simp [g2]), if_neg (by simp [g3]),
    if_neg (by simp [g4]), hkeys]
  rfl

/-! ### The claims -/

/-- C1 (amended): the cleaned Customer and Product tables have a
primary-key column (`CustomerID`, `ProductID`) with no missing value
and no duplicate; the cleaned Sale table has no missing
`TransactionID`, but because `clean_sales_data` deduplicates on
full-row equality rather than on the key, duplicate `TransactionID`
values can survive (see the counterexample). -/
theorem c1_pk_integrity_amended :
    (∀ df : DataFrame, "CustomerID" ∈ df.cols →
      (∀ r ∈ (clean_customers_data df).rows,
        getCell (clean_customers_data df).cols "CustomerID" r ≠ Val.null) ∧
      (colVals (clean_customers_data df) "CustomerID").Nodup) ∧
    (∀ df : DataFrame, "ProductID" ∈ df.cols →
      (∀ r ∈ (clean_products_data df).rows,
        getCell (clean_products_data df).cols "ProductID" r ≠ Val.null) ∧
      (colVals (clean_products_data df) "ProductID").Nodup) ∧
    (∀ df : DataFrame, "TransactionID" ∈ df.cols →
      ∀ r ∈ (clean_sales_data df).rows,
        getCell (clean_sales_data df).cols "TransactionID" r ≠ Val.null) := by
  refine ⟨fun df hmem => ⟨?_, clean_customers_nodup df hmem⟩,
    fun df hmem => ⟨?_, clean_products_nodup df hmem⟩,
    fun df hmem => ?_⟩
  · simp only [clean_customers_data_cols]
    exact clean_customers_notNull_of_critical df
      (by simp [customersCriticalColumns]) hmem
  · simp only [clean_products_data_cols]
    exact clean_products_notNull_of_critical df
      (by simp [productsCriticalColumns]) hmem
  · simp only [clean_sales_data_cols]
    exact clean_sales_notNull_of_critical df
      (by simp [salesCriticalColumns]) (by decide) hmem

/-- C5: every row of the cleaned Sale table has a numeric `SaleAmount`
within the closed interval of one-and-a-half interquartile ranges
around the quartiles, where the quartiles are the ones the cleaner
computes over the non-negative, post-coercion `SaleAmount` population
of the same table (the population right before the outlier filter). -/
theorem c5_saleamount_within_iqr_bounds :
    ∀ df : DataFrame, "SaleAmount" ∈ df.cols →
      ∀ r ∈ (clean_sales_data df).rows,
        ∃ q : ℚ,
          getCell (clean_sales_data df).cols "SaleAmount" r = Val.num q ∧
          salesQ1 df - 3/2 * (salesQ3 df - salesQ1 df) ≤ q ∧
          q ≤ salesQ3 df + 3/2 * (salesQ3 df - salesQ1 df) := by
  intro df hmem
  simp only [clean_sales_data_cols]
  exact clean_sales_saleAmount_inRange df hmem

/-- C8: a raw Sale row whose `SaleAmount` is the sentinel string of a
question mark is dropped: the coercion step sends the sentinel to
missing, `SaleAmount` is a critical column, the critical-column drop
leaves no row with a missing `SaleAmount`, and the final table
likewise has none. -/
theorem c8_question_mark_row_dropped :
    ∀ df : DataFrame, "SaleAmount" ∈ df.cols →
      toNumeric (Val.str "?") = Val.null ∧
      "SaleAmount" ∈ salesCriticalColumns ∧
      (∀ r ∈ (salesAfterCriticalDrop df).rows,
        getCell df.cols "SaleAmount" r ≠ Val.null) ∧
      (∀ r ∈ (clean_sales_data df).rows,
        getCell (clean_sales_data df).cols "SaleAmount" r ≠ Val.null) := by
  intro df hmem
  refine ⟨by decide, by simp [salesCriticalColumns], ?_, ?_⟩
  · unfold salesAfterCriticalDrop
    exact dropNaSubset_notNullAmb (by simp) (by simp [salesCriticalColumns])
      hmem
  · simp only [clean_sales_data_cols]
    exact clean_sales_notNull_of_critical df
      (by simp [salesCriticalColumns]) (by decide) hmem

/-- C10: every row of the cleaned Sale table (when the `Shipping`
column exists) carries a numeric, non-negative `Shipping` value:
missing values are filled with the column median, and rows whose
shipping is still missing or negative are removed by the non-negative
filter. -/
theorem c10_shipping_nonnull_nonneg :
    ∀ df : DataFrame, "Shipping" ∈ df.cols →
      ∀ r ∈ (clean_sales_data df).rows,
        ∃ q : ℚ, getCell (clean_sales_data df).cols "Shipping" r = Val.num q ∧
          0 ≤ q := by
  intro df hmem
  simp only [clean_sales_data_cols]
  exact clean_sales_shipping_nonneg df hmem

/-- C4 (amended): re-applying a cleaner to its own output never
increases the row count, keeps the result sorted ascending by the
entity's primary key, and leaves no missing value in any critical
column that exists in the table; the row count is not preserved in
general (a date that fails to parse becomes missing in the first pass
and is dropped by the second, and quartile bounds recomputed over the
already-filtered data can exclude further rows — see the
counterexample). -/
theorem c4_reclean_amended :
    ∀ df : DataFrame,
      ((clean_sales_data (clean_sales_data df)).rows.length ≤
          (clean_sales_data df).rows.length ∧
        isSortedLe valLe (colVals (clean_sales_data (clean_sales_data df))
          "TransactionID") = true ∧
        ∀ c ∈ salesCriticalColumns, c ∈ df.cols →
          ∀ r ∈ (clean_sales_data (clean_sales_data df)).rows,
            getCell df.cols c r ≠ Val.null) ∧
      ((clean_customers_data (clean_customers_data df)).rows.length ≤
          (clean_customers_data df).rows.length ∧
        isSortedLe valLe
          (colVals (clean_customers_data (clean_customers_data df))
            "CustomerID") = true ∧
        ∀ c ∈ customersCriticalColumns, c ∈ df.cols →
          ∀ r ∈ (clean_customers_data (clean_customers_data df)).rows,
            getCell df.cols c r ≠ Val.null) ∧
      ((clean_products_data (clean_products_data df)).rows.length ≤
          (clean_products_data df).rows.length ∧
        isSortedLe valLe
          (colVals (clean_products_data (clean_products_data df))
            "ProductID") = true ∧
        ∀ c ∈ productsCriticalColumns, c ∈ df.cols →
          ∀ r ∈ (clean_products_data (clean_products_data df)).rows,
            getCell df.cols c r ≠ Val.null) := by
  intro df
  refine ⟨⟨clean_sales_rows_le _, clean_sales_sorted _, ?_⟩,
    ⟨clean_customers_rows_le _, clean_customers_sorted _, ?_⟩,
    ⟨clean_products_rows_le _, clean_products_sorted _, ?_⟩⟩
  · intro c hc hmem
    exact clean_sales_reclean_notNull df hc hmem
  · intro c hc hmem
    have h := clean_customers_notNull_of_critical (clean_customers_data df)
      hc (by rw [clean_customers_data_cols]; exact hmem)
    rw [clean_customers_data_cols] at h
    exact h
  · intro c hc hmem
    have h := clean_products_notNull_of_critical (clean_products_data df)
      hc (by rw [clean_products_data_cols]; exact hmem)
    rw [clean_products_data_cols] at h
    exact h

/-- C2 (amended): every cube the builder returns has exactly one
column per dimension plus one per measure-function pair, and one row
per distinct dimension tuple among the fact rows whose dimension
values are all present — rows with a missing dimension value are
dropped by the grouping (the pandas `groupby` default), not kept as
their own group (see the counterexample). -/
theorem c2_cube_shape_amended :
    ∀ (df : DataFrame) (dims : List String) (measures : Measures)
      (cube : DataFrame),
      create_olap_cube df dims measures = Except.ok cube →
      cube.cols.length =
        dims.length + (measures.map (fun m => m.2.length)).sum ∧
      cube.rows.length = (distinctNonNullKeys df dims).length := by
  intro df dims measures cube h
  rw [create_olap_cube_ok h]
  exact ⟨generate_column_names_length dims measures, by
    simp [List.length_map]⟩

/-- C6: on an empty fact table whose columns include the requested
dimensions and measures, the cube builder returns a zero-row table
carrying exactly the expected headers and raises no error; in
particular the product dimension with the summed sale amount yields
the two headers of spec example four. -/
theorem c6_empty_fact_cube :
    ∀ (df : DataFrame) (dims : List String) (measures : Measures),
      df.rows = [] → dims ≠ [] →
      (∀ d ∈ dims, d ∈ df.cols) →
      (∀ m ∈ measures, m.1 ∈ df.cols) →
      (∀ m ∈ measures, ∀ f ∈ m.2, f ∈ supportedAggs) →
      create_olap_cube df dims measures =
        Except.ok ⟨generate_column_names dims measures, []⟩ ∧
      generate_column_names ["product_id"] [("sale_amount", ["sum"])] =
        ["product_id", "sale_amount_sum"] := by
  intro df dims measures hrows hdims hd hm hf
  exact ⟨create_olap_cube_empty hrows hdims hd hm hf, by decide⟩

/-- C7: cube column naming is deterministic: the dimension names in
their original order, then one name per measure-function pair joined
with an underscore, with every resulting name stripped of trailing
underscores. -/
theorem c7_column_naming_deterministic :
    ∀ (dimensions : List String) (measures : Measures),
      generate_column_names dimensions measures =
        (dimensions ++ measures.flatMap
          (fun m => m.2.map (fun func => m.1 ++ "_" ++ func))).map
          rstripUnderscore :=
  fun dimensions measures => generate_column_names_eq dimensions measures

/-- C9: in the cleaning entry point's driver loop, runs without a
fatal error process every file, skipping exactly those whose input is
missing; the first fatal error aborts the run and propagates to the
caller, so no error is silently swallowed. -/
theorem c9_error_policy :
    (∀ js : List (FileOutcome DataFrame),
      (∀ j ∈ js, ∀ m : String, j ≠ .error (.fatal m)) →
      processAll js = Except.ok (js.map fileOutcomeResult)) ∧
    (∀ (pre post : List (FileOutcome DataFrame)) (m : String),
      (∀ j ∈ pre, ∀ m2 : String, j ≠ .error (.fatal m2)) →
      processAll (pre ++ .error (.fatal m) :: post) =
        Except.error (.fatal m)) :=
  ⟨processAll_no_fatal (α := DataFrame),
   processAll_fatal_aborts (α := DataFrame)⟩

/-- C3 (amended): the warehouse load releases its connection on every
exit path, a fully successful run commits all three tables, and the
persisted store after any run is the prior file (failure before the
unlink), absent (failure at connect), or the first batches of the
load in order — each table's insert is committed atomically on its
own.  The load is not one transaction: the prior file is unlinked
before any transaction begins, and because every `to_sql` call
commits its own batch, a run failing at a later insert leaves the
earlier tables' rows committed — partially inserted data (see the
counterexample). -/
theorem c3_load_transaction_amended :
    ∀ (failAt : Option ℕ) (init : DwStore),
      (load_data_to_db failAt init).connReleased = true ∧
      ((load_data_to_db failAt init).ok = true →
        (load_data_to_db failAt init).store.dbFile =
          some fullLoadContent) ∧
      ((load_data_to_db failAt init).store.dbFile = init.dbFile ∨
        (load_data_to_db failAt init).store.dbFile = none ∨
        ∃ n : ℕ, (load_data_to_db failAt init).store.dbFile =
          some (fullLoadContent.take n)) := by
  intro failAt init
  cases failAt with
  | none =>
    exact ⟨rfl, fun _ => rfl, Or.inr (Or.inr ⟨3, rfl⟩)⟩
  | some n =>
    by_cases h1 : n ≤ 1
    · refine ⟨?_, ?_, Or.inl ?_⟩ <;> simp [load_data_to_db, h1]
    · by_cases h2 : n = 2
      · refine ⟨?_, ?_, Or.inr (Or.inl ?_)⟩ <;>
          simp [load_data_to_db, h1, h2]
      · by_cases h6 : n ≤ 6
        · refine ⟨?_, ?_, Or.inr (Or.inr ⟨0, ?_⟩)⟩ <;>
            simp [load_data_to_db, h1, h2, h6]
        · by_cases h7 : n = 7
          · refine ⟨?_, ?_, Or.inr (Or.inr ⟨1, ?_⟩)⟩ <;>
              simp [load_data_to_db, h1, h2, h6, h7, fullLoadContent]
          · by_cases h8 : n = 8
            · refine ⟨?_, ?_, Or.inr (Or.inr ⟨2, ?_⟩)⟩ <;>
                simp [load_data_to_db, h1, h2, h6, h7, h8, fullLoadContent]
            · by_cases h9 : n = 9
              · refine ⟨?_, ?_, Or.inr (Or.inr ⟨3, ?_⟩)⟩ <;>
                  simp [load_data_to_db, h1, h2, h6, h7, h8, h9,
                    fullLoadContent]
              · refine ⟨?_, ?_, Or.inr (Or.inr ⟨3, ?_⟩)⟩ <;>
                  simp [load_data_to_db, h1, h2, h6, h7, h8, h9,
                    fullLoadContent]

section ConcreteEvaluations

attribute [local semireducible] Rat.add Rat.mul Rat.inv Rat.sub

set_option maxRecDepth 8000

/-- C1 (counterexample): two raw Sale rows with the same
`TransactionID` but different amounts both survive cleaning, so the
cleaned Sale table's primary-key column does contain duplicates. -/
theorem c1_sales_pk_duplicate_counterexample :
    ¬ (colVals (clean_sales_data c1SalesDup) "TransactionID").Nodup := by
  decide

/-- C1 (witness): the amended integrity statement instantiated on
concrete Customer, Product and Sale tables. -/
theorem c1_pk_integrity_amended_witness :
    ("CustomerID" ∈ custEx.cols ∧
      (colVals (clean_customers_data custEx) "CustomerID").Nodup) ∧
    ("ProductID" ∈ prodEx.cols ∧
      (colVals (clean_products_data prodEx) "ProductID").Nodup) ∧
    ("TransactionID" ∈ c8SalesTable.cols ∧
      c8OutRow ∈ (clean_sales_data c8SalesTable).rows ∧
      getCell (clean_sales_data c8SalesTable).cols "TransactionID" c8OutRow ≠
        Val.null) :=
  ⟨⟨by decide, (c1_pk_integrity_amended.1 custEx (by decide)).2⟩,
   ⟨by decide, (c1_pk_integrity_amended.2.1 prodEx (by decide)).2⟩,
   ⟨by decide, by decide,
    c1_pk_integrity_amended.2.2 c8SalesTable (by decide) c8OutRow
      (by decide)⟩⟩

/-- C4 (counterexample): a Sale row whose date does not parse survives
the first cleaning pass but is dropped by the second, so re-cleaning
changes the row count. -/
theorem c4_reclean_drops_row_counterexample :
    (clean_sales_data c4SalesBadDate).rows.length = 1 ∧
    (clean_sales_data (clean_sales_data c4SalesBadDate)).rows.length = 0 := by
  decide

/-- C4 (witness): the amended re-cleaning statement instantiated on a
concrete Sale table with a surviving row. -/
theorem c4_reclean_amended_witness :
    "TransactionID" ∈ salesCriticalColumns ∧
    "TransactionID" ∈ c1SalesDup.cols ∧
    c1OutRow ∈ (clean_sales_data (clean_sales_data c1SalesDup)).rows ∧
    getCell c1SalesDup.cols "TransactionID" c1OutRow ≠ Val.null ∧
    (clean_sales_data (clean_sales_data c1SalesDup)).rows.length ≤
      (clean_sales_data c1SalesDup).rows.length :=
  ⟨by decide, by decide, by decide,
   (c4_reclean_amended c1SalesDup).1.2.2 "TransactionID" (by decide)
     (by decide) c1OutRow (by decide),
   (c4_reclean_amended c1SalesDup).1.1⟩

/-- C5 (witness): the in-bounds statement instantiated on a concrete
Sale table and its surviving cleaned row. -/
theorem c5_saleamount_within_iqr_bounds_witness :
    "SaleAmount" ∈ c8SalesTable.cols ∧
    c8OutRow ∈ (clean_sales_data c8SalesTable).rows ∧
    ∃ q : ℚ,
      getCell (clean_sales_data c8SalesTable).cols "SaleAmount" c8OutRow =
        Val.num q ∧
      salesQ1 c8SalesTable - 3/2 * (salesQ3 c8SalesTable -
        salesQ1 c8SalesTable) ≤ q ∧
      q ≤ salesQ3 c8SalesTable + 3/2 * (salesQ3 c8SalesTable -
        salesQ1 c8SalesTable) :=
  ⟨by decide, by decide,
   c5_saleamount_within_iqr_bounds c8SalesTable (by decide) c8OutRow
     (by decide)⟩

/-- C8 (witness): on a concrete Sale table the sentinel row is gone
from the cleaned output and the surviving row's amount is present. -/
theorem c8_question_mark_row_dropped_witness :
    "SaleAmount" ∈ c8SalesTable.cols ∧
    (clean_sales_data c8SalesTable).rows = [c8OutRow] ∧
    getCell (clean_sales_data c8SalesTable).cols "SaleAmount" c8OutRow ≠
      Val.null :=
  ⟨by decide, by decide,
   (c8_question_mark_row_dropped c8SalesTable (by decide)).2.2.2 c8OutRow
     (by decide)⟩

/-- C10 (witness): on a concrete Sale table with the shipping sentinel
the surviving row's shipping is numeric and non-negative. -/
theorem c10_shipping_nonnull_nonneg_witness :
    "Shipping" ∈ c8SalesTable.cols ∧
    c8OutRow ∈ (clean_sales_data c8SalesTable).rows ∧
    ∃ q : ℚ,
      getCell (clean_sales_data c8SalesTable).cols "Shipping" c8OutRow =
        Val.num q ∧ 0 ≤ q :=
  ⟨by decide, by decide,
   c10_shipping_nonnull_nonneg c8SalesTable (by decide) c8OutRow
     (by decide)⟩

/-- C2 (counterexample): a fact table whose single row has a missing
dimension value yields a zero-row cube although one distinct dimension
tuple is observed in the fact table: missing dimension values do not
form their own group, they are dropped. -/
theorem c2_null_dimension_dropped_counterexample :
    create_olap_cube c2NullDimFact ["product_id"] [("sale_amount", ["sum"])] =
      Except.ok ⟨["product_id", "sale_amount_sum"], []⟩ ∧
    (dedupFirst (dimKeys c2NullDimFact ["product_id"])).length = 1 := by
  decide

/-- C2 (witness): the amended shape statement instantiated on the
three-row fact table of spec example five. -/
theorem c2_cube_shape_amended_witness :
    create_olap_cube ex5Fact ["product_id"] [("sale_amount", ["sum"])] =
      Except.ok ex5Cube ∧
    ex5Cube.cols.length = (["product_id"] : List String).length +
      (([("sale_amount", ["sum"])] : Measures).map
        (fun m => m.2.length)).sum ∧
    ex5Cube.rows.length =
      (distinctNonNullKeys ex5Fact ["product_id"]).length := by
  have h : create_olap_cube ex5Fact ["product_id"]
      [("sale_amount", ["sum"])] = Except.ok ex5Cube := by decide
  exact ⟨h, (c2_cube_shape_amended ex5Fact _ _ _ h).1,
    (c2_cube_shape_amended ex5Fact _ _ _ h).2⟩

/-- C6 (witness): the empty-fact statement instantiated on the empty
warehouse sale table with the product dimension and summed amount. -/
theorem c6_empty_fact_cube_witness :
    c6EmptyFact.rows = [] ∧
    create_olap_cube c6EmptyFact ["product_id"] [("sale_amount", ["sum"])] =
      Except.ok ⟨generate_column_names ["product_id"]
        [("sale_amount", ["sum"])], []⟩ :=
  ⟨rfl,
   (c6_empty_fact_cube c6EmptyFact ["product_id"] [("sale_amount", ["sum"])]
     rfl (by decide) (by decide) (by decide) (by decide)).1⟩

/-- C3 (counterexample): a run failing at the product insert (as the
`Price` column missing from the product rename map makes it do)
reports failure while the persisted store holds the committed
customer batch: not the prior state (already unlinked), not empty,
but partially inserted data — so the schema creation, the wipe and
the inserts are not one transaction, and a failed run does commit to
the persisted store. -/
theorem c3_partial_commit_counterexample :
    (load_data_to_db (some 7) ⟨some ["prior"]⟩).ok = false ∧
    (load_data_to_db (some 7) ⟨some ["prior"]⟩).store.dbFile =
      some ["customer"] ∧
    (load_data_to_db (some 7) ⟨some ["prior"]⟩).store ≠ ⟨some ["prior"]⟩ ∧
    (load_data_to_db (some 7) ⟨some ["prior"]⟩).store.dbFile ≠ some [] ∧
    (load_data_to_db (some 7) ⟨some ["prior"]⟩).store.dbFile ≠
      some fullLoadContent := by
  decide

/-- C3 (witness): the amended transaction statement instantiated on a
run failing at the product insert over a populated prior store, and
on a successful run discharging the success implication. -/
theorem c3_load_transaction_amended_witness :
    (load_data_to_db (some 7) ⟨some ["prior"]⟩).connReleased = true ∧
    (load_data_to_db none ⟨some ["prior"]⟩).store.dbFile =
      some fullLoadContent ∧
    ((load_data_to_db (some 7) ⟨some ["prior"]⟩).store.dbFile =
        (⟨some ["prior"]⟩ : DwStore).dbFile ∨
      (load_data_to_db (some 7) ⟨some ["prior"]⟩).store.dbFile = none ∨
      ∃ n : ℕ, (load_data_to_db (some 7) ⟨some ["prior"]⟩).store.dbFile =
        some (fullLoadContent.take n)) :=
  ⟨(c3_load_transaction_amended (some 7) ⟨some ["prior"]⟩).1,
   (c3_load_transaction_amended none ⟨some ["prior"]⟩).2.1 (by decide),
   (c3_load_transaction_amended (some 7) ⟨some ["prior"]⟩).2.2⟩

/-- C9 (witness): the driver-loop policy instantiated on concrete
per-file outcomes: a missing input is skipped while the others are
processed, and a fatal error propagates. -/
theorem c9_error_policy_witness :
    processAll jobsNoFatal =
      Except.ok [some ⟨["a"], []⟩, none, some ⟨["b"], []⟩] ∧
    processAll ([Except.ok (⟨["a"], []⟩ : DataFrame)] ++
        Except.error (RunError.fatal "boom") :: [.error .missingInput]) =
      Except.error (.fatal "boom") :=
  ⟨c9_error_policy.1 jobsNoFatal (by
      intro j hj m
      fin_cases hj
      all_goals simp),
   c9_error_policy.2 [Except.ok (⟨["a"], []⟩ : DataFrame)]
     [.error .missingInput] "boom" (by
      intro j hj m
      fin_cases hj
      all_goals simp)⟩

end ConcreteEvaluations

end SmartStore
